import Mathlib

/-!
EDDL layers, activation routines, buffer protocol and optimizers: contracts

A shallow embedding of the reduction layer `LRMin`
(`src/src/layers/reductions/layer_min.cpp`), the operator layer `LExp`
(`src/src/layers/operators/layer_exp.cpp`), the activation routines of
`src/src/tensor/nn/tensor_activations.cpp`, the stride computation of
`src/src/binding.cpp` and the `clone` dispatch of the optimizer classes of
`src/src/optimizers/optim.h`, together with the part of the `Tensor` class
(`src/src/tensor/tensor.h`) they touch.

Conventions of the embedding:

* C++ `int` values that are sizes or axis indices are `Int`. The `(int)` casts
  of binding.cpp reduce modulo `2^32` (`to_int32`) and its `ssize_t` products
  modulo `2^64` (`to_int64`); no other arithmetic is performed on them by the
  embedded code except the product of a shape.
* Tensor elements (`float`) are rationals, so that sums and products are
  exact; the element-wise exponential is a parameter `expf`.
* `msg(text, origin)` aborts the routine: a routine that can call it returns
  an `Except Msg` value or a record with an `error` field.
* Objects are values. A pointer to a parent layer is the parent's record at
  the time the pointer is stored.
-/

set_option autoImplicit false

/-! ## Tensors -/

/-- Host device identifier, `#define DEV_CPU 0` of tensor.h. -/
def DEV_CPU : Int := 0

/-- Data members of `class Tensor` (tensor.h, lines 132-138): `device`, `ndim`,
`size`, `shape` and the element storage `ptr`. The members `stride`, `ptr2`,
`mat`, `gpu_device` and `tsem` are not read by the embedded code. -/
structure Tensor where
  device : Int
  ndim : Nat
  size : Int
  shape : List Int
  ptr : List ℚ
  deriving DecidableEq

/-- Modelled from the spec: the constructor `Tensor::Tensor(vector<int> shape, int dev)`,
declared at tensor.h line 155 and defined outside `src/` (`new Tensor(shape, dev)`
in the callers). Following the data
model (a buffer has the shape and device it was created for, and
`element-count == product(shape)`) and the contract of `create(shape, device)`
(storage sized to `product(shape)`, zero or uninitialised), the new tensor
records `dev` and `shape`, has `ndim = shape.size()` and `size = product(shape)`,
and its storage is taken zero-filled. Allocation failure is not represented:
the layer constructors never inspect an allocation result. -/
def Tensor.new (shape : List Int) (dev : Int) : Tensor :=
  { device := dev
    ndim := shape.length
    size := shape.prod
    shape := shape
    ptr := List.replicate shape.prod.toNat 0 }

/-- Modelled from the spec: the accessor `Tensor::getShape()`, declared at tensor.h
line 162 and defined outside `src/`; it returns the `shape` of the buffer. -/
def Tensor.getShape (t : Tensor) : List Int := t.shape

/-! ## Layers -/

/-- What a constructor reads through a `Layer *` argument: the members `name`,
`dev`, `output` and `delta` of the base class. The `child` list of the parent,
which `l->addchild(this)` extends, is read by no code under `src/` and is left
out. -/
structure Layer where
  name : String
  dev : Int
  output : Tensor
  delta : Tensor
  deriving DecidableEq

/-- Data members of an `LRMin` object: those inherited from `Layer`
(`name`, `dev`, `output`, `delta`, `parent`, `orig`) and from `ReductionLayer`
(`input`, `axis`, `keepdims`, `os`, `layers`). -/
structure LRMin where
  name : String
  dev : Int
  input : List Tensor
  output : Tensor
  delta : Tensor
  axis : List Int
  keepdims : Bool
  os : List Int
  parent : List Layer
  layers : List Layer
  orig : Option Layer
  deriving DecidableEq

/-- Data members of an `LExp` object (`input` is a single tensor pointer in
`OperatorLayer`). -/
structure LExp where
  name : String
  dev : Int
  input : Tensor
  output : Tensor
  delta : Tensor
  parent : List Layer
  orig : Option Layer
  deriving DecidableEq

/-- Upcast of an `LRMin *` to `Layer *`. -/
def LRMin.toLayer (L : LRMin) : Layer :=
  { name := L.name, dev := L.dev, output := L.output, delta := L.delta }

/-- Upcast of an `LExp *` to `Layer *`. -/
def LExp.toLayer (L : LExp) : Layer :=
  { name := L.name, dev := L.dev, output := L.output, delta := L.delta }

/-- The loop of layer_min.cpp lines 53-56,
`for(int i=0;i<input[0]->ndim;i++) if (find(axis.begin(), axis.end(), i) == axis.end()) os.push_back(input[0]->shape[i]);`
run on an initially empty `os`. The read `shape[i]` is in bounds whenever
`ndim = shape.size()`; outside that the C++ read is undefined and the model
reads 0. -/
def LRMin.keptShape (axis : List Int) (t : Tensor) : List Int :=
  (List.range t.ndim).foldl
    (fun (os : List Int) (i : Nat) => if (i : Int) ∈ axis then os else os ++ [t.shape.getD i 0]) []

/-- The value of the static counter `LRMin::total_layers` after the constructor
(layer_min.cpp line 39): pre-incremented only when the given name is empty. -/
def LRMin.total_layers_after (total_layers : Nat) (name : String) : Nat :=
  if name.isEmpty then total_layers + 1 else total_layers

/-- The constructor `LRMin::LRMin(Layer *l, vector<int> axis, bool keepdims, string name, int dev)`
of layer_min.cpp lines 37-64. `total_layers` is the value of the static
counter before the call. The base constructor `ReductionLayer(name, dev)`
(outside `src/`) stores `name` and `dev` and leaves `os`, `layers` empty and
`orig` null. The assignments `output=l->output; delta=l->delta;` of lines
43-44 are overwritten at lines 59-60. -/
def LRMin.new (total_layers : Nat) (l : Layer) (axis : List Int) (keepdims : Bool)
    (name : String) (dev : Int) : LRMin :=
  let name1 := if name.isEmpty then "reduction_min" ++ toString (total_layers + 1) else name
  let input := [l.output]
  let in0 := input.headD l.output
  let os := if keepdims then in0.shape else LRMin.keptShape axis in0
  { name := name1
    dev := dev
    input := input
    output := Tensor.new os dev
    delta := Tensor.new os dev
    axis := axis
    keepdims := keepdims
    os := os
    parent := [l]
    layers := []
    orig := none }

/-- The constructor `LExp::LExp(Layer *l, string name, int dev)` of
layer_exp.cpp lines 41-50. The static counter `LExp::total_layers` is
incremented unconditionally and does not enter the object. -/
def LExp.new (l : Layer) (name : String) (dev : Int) : LExp :=
  { name := name
    dev := dev
    input := l.output
    output := Tensor.new l.output.getShape dev
    delta := Tensor.new l.output.getShape dev
    parent := [l]
    orig := none }

/-- The method `LRMin::forward()` of layer_min.cpp lines 66-69:
`for(int i=0;i<layers.size();i++) layers[i]->forward();`. The body assigns no
member of the layer; its whole effect is the sequence of virtual `forward()`
calls on the sub-layers, in index order. `callForward sub` is the effect of
`sub->forward()` on the program state `σ`. -/
def LRMin.forward {σ : Type} (callForward : Layer → σ → σ) (L : LRMin) (s : σ) : σ :=
  L.layers.foldl (fun st sub => callForward sub st) s

/-- The method `LRMin::backward()` of layer_min.cpp lines 71-74:
`for(int i=layers.size()-1;i>=0;i--) layers[i]->backward();`, the virtual
`backward()` calls on the sub-layers from the last index down to 0. -/
def LRMin.backward {σ : Type} (callBackward : Layer → σ → σ) (L : LRMin) (s : σ) : σ :=
  L.layers.reverse.foldl (fun st sub => callBackward sub st) s

/-! ## Reference readings of the shape rule -/

/-- Reading of "for axes in the set, drop the axis": walk the shape, `k` being
the index of the head, and omit every size whose index is listed in `axis`. -/
def Spec.dropAxesFrom (axis : List Int) : Nat → List Int → List Int
  | _, [] => []
  | k, d :: ds =>
    if (k : Int) ∈ axis then Spec.dropAxesFrom axis (k + 1) ds
    else d :: Spec.dropAxesFrom axis (k + 1) ds

/-- The shape with the axes listed in `axis` removed, the others in order. -/
def Spec.dropAxes (axis : List Int) (shape : List Int) : List Int :=
  Spec.dropAxesFrom axis 0 shape

/-- Reading of "for axes in the set, replace with size 1": walk the shape and
put 1 at every index listed in `axis`. -/
def Spec.unitAxesFrom (axis : List Int) : Nat → List Int → List Int
  | _, [] => []
  | k, d :: ds =>
    (if (k : Int) ∈ axis then 1 else d) :: Spec.unitAxesFrom axis (k + 1) ds

/-- The shape with size 1 at the axes listed in `axis`, the others unchanged. -/
def Spec.unitAxes (axis : List Int) (shape : List Int) : List Int :=
  Spec.unitAxesFrom axis 0 shape

/-! ## Fixtures of `src/examples/eddl_test.cpp` -/

/-- The tensor `A` of eddl_test.cpp line 38, `new Tensor({4,2,3,7})`. -/
def test_A : Tensor := Tensor.new [4, 2, 3, 7] DEV_CPU

/-- The axis vector of eddl_test.cpp lines 42-44. -/
def test_axis : List Int := [1, 3]

/-- The tensor `A` of eddl_test.cpp line 80, `new Tensor({4,2,3})`. -/
def test_A2 : Tensor := Tensor.new [4, 2, 3] DEV_CPU

/-- The tensor `B` of eddl_test.cpp line 81. -/
def test_B2 : Tensor := Tensor.new [4, 2, 3] DEV_CPU

/-- The tensor `C` of eddl_test.cpp line 82. -/
def test_C2 : Tensor := Tensor.new [4, 2, 3] DEV_CPU

/-- The axis vector of eddl_test.cpp lines 84-85. -/
def test_axis2 : List Int := [1]

/-- A parent output of shape `[2]` on the host holding the elements 1 and 2. -/
def test_min_input : Tensor :=
  { device := DEV_CPU, ndim := 1, size := 2, shape := [2], ptr := [1, 2] }

/-- A layer with the given output tensor and a gradient buffer of the same
shape, as a parent for the layers under study. -/
def inputLayer (t : Tensor) : Layer :=
  { name := "input", dev := t.device, output := t, delta := Tensor.new t.shape t.device }

/-! ## Tensor operations used by the operator layers -/

/-- GPU device range start, `#define DEV_GPU 1000` of tensor.h. -/
def DEV_GPU : Int := 1000

/-- FPGA device range start, `#define DEV_FPGA 2000` of tensor.h. -/
def DEV_FPGA : Int := 2000

/-- An error raised through `msg(text, origin)` (declared at tensor.h line 66, with
its body outside `src/`): the message and the routine that raised it. Raising
it ends the routine; nothing after the call is executed. -/
structure Msg where
  text : String
  origin : String
  deriving DecidableEq

/-- Modelled from the spec: `Tensor::eqsize(A, B)`, declared at tensor.h line 227,
body outside `src/`; documented in include/eddl/tensor/tensor.h (lines
2737-2745) as "Check if two tensors have the same shape ... 1 if they have
the same shape, 0 otherwise": same number of dimensions and same sizes. -/
def Tensor.eqsize (A B : Tensor) : Bool :=
  decide (A.ndim = B.ndim ∧ A.shape = B.shape)

/-- Modelled from the spec: `Tensor::isCPU()`, declared at tensor.h line 177 and defined
outside `src/` ("Check if the tensor is in CPU"): the device is `DEV_CPU`. -/
def Tensor.isCPU (t : Tensor) : Bool := decide (t.device = DEV_CPU)

/-- Modelled from the spec: `Tensor::isGPU()`, declared at tensor.h line 179 and defined
outside `src/` ("Check if the tensor is in GPU"): the device lies in the GPU
range `DEV_GPU .. DEV_FPGA - 1` of the defines of tensor.h lines 35-46. -/
def Tensor.isGPU (t : Tensor) : Bool := decide (DEV_GPU ≤ t.device ∧ t.device < DEV_FPGA)

/-- Modelled from the spec: `Tensor::set_exp()`, declared at tensor.h line 206,
body outside `src/` (the "Inplace element-wise exp operation of a tensor" of
include/eddl/tensor/tensor.h line 1094): every element is replaced by its
exponential; shape and device are untouched. -/
def Tensor.set_exp (expf : ℚ → ℚ) (t : Tensor) : Tensor :=
  { t with ptr := t.ptr.map expf }

/-- Modelled from the spec: `Tensor::copy(A, B)`, declared at tensor.h line 231,
body outside `src/` ("Copy data from tensor A to B"). Following the error
design of the spec (device mismatch and shape mismatch between operands are
checked at operator entry and fail fast), the copy is refused when the devices
or the shapes differ; otherwise `B` receives the elements of `A`. The result is
the new `B`. -/
def Tensor.copy (A B : Tensor) : Except Msg Tensor :=
  if A.device ≠ B.device then
    .error { text := "Tensors in different devices", origin := "Tensor::copy" }
  else if !Tensor.eqsize A B then
    .error { text := "Incompatible dims", origin := "Tensor::copy" }
  else
    .ok { B with ptr := A.ptr }

/-- Modelled from the spec: `Tensor::el_mult(A, B, C, incC)`, declared at tensor.h line
253 and defined outside `src/`; documented in include/eddl/tensor/tensor.h
(lines 2691-2698) as "Element-wise multiplication of two tensors ... C = A*B ...
if incC is 1, C += A*B". Device and shape mismatches are refused at entry, as
the error design of the spec requires. The result is the new `C`. -/
def Tensor.el_mult (A B C : Tensor) (incC : Int) : Except Msg Tensor :=
  if A.device ≠ B.device ∨ A.device ≠ C.device then
    .error { text := "Tensors in different devices", origin := "Tensor::el_mult" }
  else if !Tensor.eqsize A B || !Tensor.eqsize A C then
    .error { text := "Incompatible dims", origin := "Tensor::el_mult" }
  else if incC = 1 then
    .ok { C with ptr := List.zipWith (fun c ab => c + ab) C.ptr
                          (List.zipWith (fun a b => a * b) A.ptr B.ptr) }
  else
    .ok { C with ptr := List.zipWith (fun a b => a * b) A.ptr B.ptr }

/-! ## `LExp::forward` and `LExp::backward` -/

/-- The method `LExp::forward()` of layer_exp.cpp lines 52-55:
`Tensor::copy(parent[0]->output, output); output->set_exp();`. The state is the
layer together with the parent it points to; `parent[0]` on an empty parent
vector is an out-of-bounds read and is reported as an error. -/
def LExp.forward (expf : ℚ → ℚ) (n : LExp) : Except Msg LExp :=
  match n.parent with
  | [] => .error { text := "parent[0] out of bounds", origin := "LExp::forward" }
  | p :: _ =>
    match Tensor.copy p.output n.output with
    | .error e => .error e
    | .ok out => .ok { n with output := out.set_exp expf }

/-- The method `LExp::backward()` of layer_exp.cpp lines 57-60:
`delta->set_exp(); Tensor::el_mult(delta, parent[0]->output, parent[0]->delta, 1);`.
The first statement rewrites the layer's own `delta` in place; the second
writes the parent's `delta`. The result is the layer with its updated parent. -/
def LExp.backward (expf : ℚ → ℚ) (n : LExp) : Except Msg LExp :=
  match n.parent with
  | [] => .error { text := "parent[0] out of bounds", origin := "LExp::backward" }
  | p :: ps =>
    let delta1 := n.delta.set_exp expf
    match Tensor.el_mult delta1 p.output p.delta 1 with
    | .error e => .error e
    | .ok pdelta => .ok { n with delta := delta1, parent := { p with delta := pdelta } :: ps }

/-- The contribution that `LExp::backward` adds to the parent's gradient, as a
function of the layer's own gradient `d` and the parent's output `x` only. -/
def LExp.backward_contribution (expf : ℚ → ℚ) (d x : List ℚ) : List ℚ :=
  List.zipWith (fun a b => a * b) (d.map expf) x

/-- A rational stand-in for the exponential (its Taylor polynomial of degree
2), used where a concrete evaluation needs a value for the parameter `expf`. -/
def expf_sample (x : ℚ) : ℚ := 1 + x + x * x / 2

/-- A parent layer whose output holds `[1, 2]` and whose gradient holds
`[10, 20]`, both of shape `[2]` on the host. -/
def test_exp_parent : Layer :=
  { name := "input", dev := DEV_CPU, output := test_min_input,
    delta := { test_min_input with ptr := [10, 20] } }

/-- The `LExp` layer constructed over `test_exp_parent`, its own gradient then
holding `[1, 1]`. -/
def test_exp_layer : LExp :=
  { LExp.new test_exp_parent "exp" DEV_CPU with
    delta := { test_min_input with ptr := [1, 1] } }

/-! ## `share` and `clone` -/

/-- The method `LRMin::clone(int c, int bs, vector<Layer *> p, int todev)` of
layer_min.cpp lines 82-88:
`n = new LRMin(p[0], axis, keepdims, "clone_" + to_string(c) + name, todev); n->orig = this; return n;`.
The returned pointer is `some n`; `p[0]` on an empty vector is an out-of-bounds
read and is reported as an error. `total_layers` is the static counter before
the call. -/
def LRMin.clone (total_layers : Nat) (L : LRMin) (c _bs : Int) (p : List Layer)
    (todev : Int) : Except Msg (Option LRMin) :=
  match p with
  | [] => .error { text := "p[0] out of bounds", origin := "LRMin::clone" }
  | p0 :: _ =>
    .ok (some { LRMin.new total_layers p0 L.axis L.keepdims
                  ("clone_" ++ toString c ++ L.name) todev with
                orig := some L.toLayer })

/-- The method `LRMin::share(int c, int bs, vector<Layer *> p)` of layer_min.cpp
lines 76-80: `clone(c,bs,p,dev); return nullptr;`. The clone is built and
dropped; the returned pointer is null (`none`). -/
def LRMin.share (total_layers : Nat) (L : LRMin) (c bs : Int) (p : List Layer) :
    Except Msg (Option LRMin) :=
  match LRMin.clone total_layers L c bs p L.dev with
  | .error e => .error e
  | .ok _ => .ok none

/-- The method `LExp::share(int c, int bs, vector<Layer *> p)` of layer_exp.cpp
lines 62-67:
`n = new LExp(p[0], "share_" + to_string(c) + name, dev); n->orig = this; return n;`. -/
def LExp.share (L : LExp) (c _bs : Int) (p : List Layer) : Except Msg (Option LExp) :=
  match p with
  | [] => .error { text := "p[0] out of bounds", origin := "LExp::share" }
  | p0 :: _ =>
    .ok (some { LExp.new p0 ("share_" ++ toString c ++ L.name) L.dev with
                orig := some L.toLayer })

/-- The method `LExp::clone(int c, int bs, vector<Layer *> p, int todev)` of
layer_exp.cpp lines 69-74, which also names the copy `"share_" + to_string(c) + name`. -/
def LExp.clone (L : LExp) (c _bs : Int) (p : List Layer) (todev : Int) :
    Except Msg (Option LExp) :=
  match p with
  | [] => .error { text := "p[0] out of bounds", origin := "LExp::clone" }
  | p0 :: _ =>
    .ok (some { LExp.new p0 ("share_" ++ toString c ++ L.name) todev with
                orig := some L.toLayer })

/-! ## Activation routines of tensor_activations.cpp -/

/-- The tensor operands of the activation routines, by parameter name. -/
inductive Buf where
  | A | B | D | I | PD
  deriving DecidableEq

/-- What a routine does to an operand, in program order: taking the operand's
semaphore (`tsem->lock()`), releasing it (`tsem->unlock()`), or writing its
elements through a compute kernel. -/
inductive Event where
  | lock (b : Buf)
  | unlock (b : Buf)
  | write (b : Buf)
  deriving DecidableEq

/-- Outcome of an activation routine: the events executed in order, the error
raised through `msg` (if any, in which case the routine stopped there) and the
destination tensor afterwards. -/
structure Run where
  trace : List Event
  error : Option Msg
  dest : Tensor

/-- The routine `ReLu(Tensor *A, Tensor *B)` of tensor_activations.cpp lines 11-32.
`cGPU` tells whether the block under `#ifdef cGPU` is compiled; the kernels
`cpu_relu` and `gpu_relu` (outside `src/`) are parameters giving the new `B`.
The block under `#ifdef cFPGA` is empty. -/
def ReLu (cGPU : Bool) (cpu_relu gpu_relu : Tensor → Tensor → Tensor) (A B : Tensor) : Run :=
  if A.device ≠ B.device then
    { trace := [], dest := B
      error := some { text := "Tensors in different devices", origin := "Tensor::ReLu" } }
  else if !Tensor.eqsize A B then
    { trace := [], dest := B
      error := some { text := "Incompatible dims", origin := "Tensor::ReLu" } }
  else if A.isCPU then
    { trace := [.lock .B, .write .B, .unlock .B], error := none, dest := cpu_relu A B }
  else if cGPU && A.isGPU then
    { trace := [.lock .B, .write .B, .unlock .B], error := none, dest := gpu_relu A B }
  else
    { trace := [.lock .B, .unlock .B], error := none, dest := B }

/-- The routine `D_ReLu(Tensor *D, Tensor *I, Tensor *PD)` of
tensor_activations.cpp lines 35-56. -/
def D_ReLu (cGPU : Bool) (cpu_d_relu gpu_d_relu : Tensor → Tensor → Tensor → Tensor)
    (D I PD : Tensor) : Run :=
  if D.device ≠ I.device ∨ D.device ≠ PD.device then
    { trace := [], dest := PD
      error := some { text := "Tensors in different devices", origin := "Tensor::D_ReLu" } }
  else if !Tensor.eqsize D I || !Tensor.eqsize D PD then
    { trace := [], dest := PD
      error := some { text := "Incompatible dims", origin := "Tensor::D_ReLu" } }
  else if D.isCPU then
    { trace := [.lock .PD, .write .PD, .unlock .PD], error := none, dest := cpu_d_relu D I PD }
  else if cGPU && D.isGPU then
    { trace := [.lock .PD, .write .PD, .unlock .PD], error := none, dest := gpu_d_relu D I PD }
  else
    { trace := [.lock .PD, .unlock .PD], error := none, dest := PD }

/-- The routine `Softmax(Tensor *A, Tensor *B)` of tensor_activations.cpp lines
59-82. -/
def Softmax (cGPU : Bool) (cpu_softmax gpu_softmax : Tensor → Tensor → Tensor)
    (A B : Tensor) : Run :=
  if A.device ≠ B.device then
    { trace := [], dest := B
      error := some { text := "Tensors in different devices", origin := "Tensor::Softmax" } }
  else if !Tensor.eqsize A B then
    { trace := [], dest := B
      error := some { text := "Incompatible dims", origin := "Tensor::Softmax" } }
  else if A.ndim ≠ 2 then
    { trace := [], dest := B
      error := some { text := "Softmax only over 2D Tensor (batch x logits)",
                      origin := "Tensor::Softmax" } }
  else if A.isCPU then
    { trace := [.lock .B, .write .B, .unlock .B], error := none, dest := cpu_softmax A B }
  else if cGPU && A.isGPU then
    { trace := [.lock .B, .write .B, .unlock .B], error := none, dest := gpu_softmax A B }
  else
    { trace := [.lock .B, .unlock .B], error := none, dest := B }

/-- The routine `D_Softmax(Tensor *D, Tensor *I, Tensor *PD)` of
tensor_activations.cpp lines 85-112. The routine contains no `tsem->lock()` and
no `tsem->unlock()`: every event of a run is an event of a callee. The callees
have no body under `src/`: `cpu_d_softmax` stands for the kernel called on the
CPU and `gpu_block` for the `Tensor` operations of the block under
`#ifdef cGPU` (lines 97-103); each gives the new `PD` and the events it
executes. On any other device the routine calls nothing. -/
def D_Softmax (cGPU : Bool)
    (cpu_d_softmax : Tensor → Tensor → Tensor → Tensor × List Event)
    (gpu_block : Tensor → Tensor → Tensor → Tensor × List Event) (D I PD : Tensor) : Run :=
  if D.device ≠ I.device ∨ D.device ≠ PD.device then
    { trace := [], dest := PD
      error := some { text := "Tensors in different devices", origin := "Tensor::D_Softmax" } }
  else if !Tensor.eqsize D I || !Tensor.eqsize D PD then
    { trace := [], dest := PD
      error := some { text := "Incompatible dims", origin := "Tensor::D_Softmax" } }
  else if D.ndim ≠ 2 then
    { trace := [], dest := PD
      error := some { text := "D_Softmax only over 2D Tensor (batch x delta_probs)",
                      origin := "Tensor::D_Softmax" } }
  else if D.isCPU then
    { trace := (cpu_d_softmax D I PD).2, error := none, dest := (cpu_d_softmax D I PD).1 }
  else if cGPU && D.isGPU then
    { trace := (gpu_block D I PD).2, error := none, dest := (gpu_block D I PD).1 }
  else
    { trace := [], error := none, dest := PD }

/-- Reading of "performs the write only while holding that buffer's lock": scan
the events with the flag `held`; a write to `b` is allowed only when `held`. -/
def Spec.writesUnderLock (b : Buf) : Bool → List Event → Bool
  | _, [] => true
  | held, .lock b1 :: es =>
    if b1 = b then Spec.writesUnderLock b true es else Spec.writesUnderLock b held es
  | held, .unlock b1 :: es =>
    if b1 = b then Spec.writesUnderLock b false es else Spec.writesUnderLock b held es
  | held, .write b1 :: es =>
    if b1 = b then held && Spec.writesUnderLock b held es
    else Spec.writesUnderLock b held es

/-- Whether the lock of `b` is held after the events, starting from `held`. -/
def Spec.heldAfter (b : Buf) : Bool → List Event → Bool
  | held, [] => held
  | held, .lock b1 :: es =>
    if b1 = b then Spec.heldAfter b true es else Spec.heldAfter b held es
  | held, .unlock b1 :: es =>
    if b1 = b then Spec.heldAfter b false es else Spec.heldAfter b held es
  | held, .write _ :: es => Spec.heldAfter b held es

/-- Reading of the locking rule for the destination `b`: every write under the
lock, the lock acquired exactly once, and released at the end. -/
def Spec.lockDiscipline (b : Buf) (trace : List Event) : Bool :=
  Spec.writesUnderLock b false trace
    && decide ((trace.filter (fun e => decide (e = Event.lock b))).length = 1)
    && !Spec.heldAfter b false trace

/-- A 2-D host tensor of shape `[1, 2]` holding the given two elements. -/
def test_2d (x y : ℚ) : Tensor :=
  { device := DEV_CPU, ndim := 2, size := 2, shape := [1, 2], ptr := [x, y] }

/-- The value of `sizeof(float)`: 4 bytes, the IEEE single-precision format that
the buffer descriptor of binding.cpp announces. -/
def sizeof_float : Int := 4

/-- Objects of the optimizer classes declared in optim.h lines 56-204, with the
data members each class declares. The members `name` and `layers` of the base
class are not read by `clone`. -/
inductive Optimizer where
  | SGD (lr mu weight_decay : ℚ) (nesterov : Bool) (mT : List Tensor)
  | Adam (lr beta_1 beta_2 epsilon weight_decay : ℚ) (amsgrad : Bool) (mT : List Tensor)
  | AdaDelta (lr rho epsilon weight_decay : ℚ) (mT : List Tensor)
  | Adagrad (lr epsilon weight_decay : ℚ) (mT : List Tensor)
  | Adamax (lr beta_1 beta_2 epsilon weight_decay : ℚ) (mT : List Tensor)
  | Nadam (lr beta_1 beta_2 epsilon schedule_decay : ℚ) (mT : List Tensor)
  | RMSProp (lr rho epsilon weight_decay : ℚ) (mT : List Tensor)
  deriving DecidableEq

/-- The class of an optimizer object. -/
def Optimizer.className : Optimizer → String
  | .SGD .. => "SGD"
  | .Adam .. => "Adam"
  | .AdaDelta .. => "AdaDelta"
  | .Adagrad .. => "Adagrad"
  | .Adamax .. => "Adamax"
  | .Nadam .. => "Nadam"
  | .RMSProp .. => "RMSProp"

/-- The base method of optim.h line 50, `virtual Optimizer *clone() { return nullptr; }`. -/
def Optimizer.base_clone : Option Optimizer := none

/-- Modelled from the spec: `SGD::clone()`, declared as an override at optim.h line 67,
body outside `src/`. Following the optimizer contract ("`clone()` produces an
independently-stateful copy (e.g., separate momentum buffers)"), it returns a
new `SGD` with the same hyper-parameters and momentum buffers of its own,
not yet allocated. -/
def SGD.clone (lr mu weight_decay : ℚ) (nesterov : Bool) : Option Optimizer :=
  some (.SGD lr mu weight_decay nesterov [])

/-- The virtual call `o->clone()`: `SGD` overrides `clone` (optim.h line 67); in
`Adam`, `AdaDelta`, `Adagrad`, `Adamax`, `Nadam` and `RMSProp` the declaration
`Optimizer *clone();` is commented out (lines 90, 112, 132, 154, 176, 197), so
the call reaches the base method. -/
def Optimizer.clone : Optimizer → Option Optimizer
  | .SGD lr mu weight_decay nesterov _ => SGD.clone lr mu weight_decay nesterov
  | .Adam .. => Optimizer.base_clone
  | .AdaDelta .. => Optimizer.base_clone
  | .Adagrad .. => Optimizer.base_clone
  | .Adamax .. => Optimizer.base_clone
  | .Nadam .. => Optimizer.base_clone
  | .RMSProp .. => Optimizer.base_clone

/-- The object built by `Adam()` with the default arguments of optim.h line 88. -/
def test_Adam : Optimizer :=
  .Adam (1 / 100) (9 / 10) (999 / 1000) (1 / 100000000) 0 false []

/-! ## Metric and loss: `MMeanSquaredError` and `LDice` -/

/-- Modelled from the spec: `Tensor::sum(scA, A, scB, B, C, incC)`, declared at tensor.h
line 243, body outside `src/`; documented in include/eddl/tensor/tensor.h
(lines 2664-2673, under its later name `add`) as "Weighted element-wise sum of
two tensors ... C = sc*A + scB*B ... if incC is 1, C += sc*A + scB*B". Device
and shape mismatches are refused at entry, as the error design of the spec
requires. The result is the new `C`. -/
def Tensor.sum (scA : ℚ) (A : Tensor) (scB : ℚ) (B C : Tensor) (incC : Int) :
    Except Msg Tensor :=
  if A.device ≠ B.device ∨ A.device ≠ C.device then
    .error { text := "Tensors in different devices", origin := "Tensor::sum" }
  else if !Tensor.eqsize A B || !Tensor.eqsize A C then
    .error { text := "Incompatible dims", origin := "Tensor::sum" }
  else if incC = 1 then
    .ok { C with ptr := List.zipWith (fun c ab => c + ab) C.ptr
                          (List.zipWith (fun a b => scA * a + scB * b) A.ptr B.ptr) }
  else
    .ok { C with ptr := List.zipWith (fun a b => scA * a + scB * b) A.ptr B.ptr }

/-- The call `Tensor::add(scA, A, scB, B, C, incC)` of loss_dice.cpp: the weighted
sum `Tensor.sum` under the name it has in include/eddl/tensor/tensor.h line 2673. -/
def Tensor.add (scA : ℚ) (A : Tensor) (scB : ℚ) (B C : Tensor) (incC : Int) :
    Except Msg Tensor :=
  Tensor.sum scA A scB B C incC

/-- Modelled from the spec: `Tensor::el_div(A, B, C, incC)`, declared at tensor.h line
255, body outside `src/`; documented in include/eddl/tensor/tensor.h (lines
2683-2689) as "Element-wise division of two tensors ... C = A./B ... if incC is
1, C += A./B", with the entry checks of the spec. The result is the new `C`. -/
def Tensor.el_div (A B C : Tensor) (incC : Int) : Except Msg Tensor :=
  if A.device ≠ B.device ∨ A.device ≠ C.device then
    .error { text := "Tensors in different devices", origin := "Tensor::el_div" }
  else if !Tensor.eqsize A B || !Tensor.eqsize A C then
    .error { text := "Incompatible dims", origin := "Tensor::el_div" }
  else if incC = 1 then
    .ok { C with ptr := List.zipWith (fun c ab => c + ab) C.ptr
                          (List.zipWith (fun a b => a / b) A.ptr B.ptr) }
  else
    .ok { C with ptr := List.zipWith (fun a b => a / b) A.ptr B.ptr }

/-- Modelled from the spec: `Tensor::total_sum()`, declared at tensor.h line 212, body
outside `src/`; it is the `sum()` of include/eddl/tensor/tensor.h line 665,
"Obtain the sum of all the values in the tensor". -/
def Tensor.total_sum (t : Tensor) : ℚ := t.ptr.sum

/-- Modelled from the spec: `Tensor::fill_(v)`, body outside `src/`; documented in
include/eddl/tensor/tensor.h line 1716 as "Fill tensor with a value". -/
def Tensor.fill_ (t : Tensor) (v : ℚ) : Tensor :=
  { t with ptr := t.ptr.map (fun _ => v) }

/-- Modelled from the spec: `Tensor::mult_(v)`, body outside `src/`; documented in
include/eddl/tensor/tensor.h line 1248 as "Inplace multiplication operation of
a tensor by a scalar". -/
def Tensor.mult_ (t : Tensor) (v : ℚ) : Tensor :=
  { t with ptr := t.ptr.map (fun x => x * v) }

/-- Outcome of a metric or loss value routine: the returned number and the two
operands as they are after the call. -/
structure ValueRun where
  value : ℚ
  T : Tensor
  Y : Tensor

/-- Outcome of a loss delta routine: the three operands after the call. -/
structure DeltaRun where
  T : Tensor
  Y : Tensor
  D : Tensor

/-- The method `MMeanSquaredError::value(Tensor *T, Tensor *Y)` of
metric_mean_squared_error.cpp lines 31-40:
`aux = new Tensor(T->getShape(), T->device); Tensor::sum(1.0, T, -1.0, Y, aux, 0);`
`Tensor::el_mult(aux, aux, aux, 0); f = aux->total_sum(); delete aux; return f;`.
Only `aux` is passed as a destination; `T` and `Y` are returned as they were. -/
def MMeanSquaredError.value (T Y : Tensor) : Except Msg ValueRun :=
  let aux := Tensor.new T.getShape T.device
  match Tensor.sum 1 T (-1) Y aux 0 with
  | .error e => .error e
  | .ok aux1 =>
    match Tensor.el_mult aux1 aux1 aux1 0 with
    | .error e => .error e
    | .ok aux2 => .ok { value := aux2.total_sum, T := T, Y := Y }

/-- The method `LDice::value(Tensor *T, Tensor *Y)` of loss_dice.cpp lines 45-57:
`Tensor aux1(T->getShape(), T->device);`
`for (int i = 0; i < T->size; i++) aux1.ptr[i] = (2 * T->ptr[i] * Y->ptr[i] + 1.) / (T->ptr[i] + Y->ptr[i] + 1.);`
`f = 1 - aux1.sum(); return f;`. A read past the end of a buffer is undefined
in C++ and reads 0 here. -/
def LDice.value (T Y : Tensor) : ℚ :=
  let aux1 := Tensor.new T.getShape T.device
  let filled := (List.range T.size.toNat).foldl
    (fun (a : List ℚ) (i : Nat) =>
      a.set i ((2 * T.ptr.getD i 0 * Y.ptr.getD i 0 + 1)
                / (T.ptr.getD i 0 + Y.ptr.getD i 0 + 1)))
    aux1.ptr
  1 - Tensor.total_sum { aux1 with ptr := filled }

/-- The method `LDice::delta(Tensor *T, Tensor *Y, Tensor *D)` of loss_dice.cpp
lines 21-42. The local `res` is allocated and never used. The last statement
is `D->mult_(-2.)`. -/
def LDice.delta (T Y D : Tensor) : Except Msg DeltaRun :=
  let one := (Tensor.new T.getShape T.device).fill_ 1
  let Ti1 := Tensor.new T.getShape T.device
  let den := Tensor.new T.getShape T.device
  match Tensor.add 1 one 1 T Ti1 0 with
  | .error e => .error e
  | .ok Ti1a =>
    match Tensor.add 1 Ti1a 1 Y den 0 with
    | .error e => .error e
    | .ok den1 =>
      match Tensor.el_mult T T D 0 with
      | .error e => .error e
      | .ok D1 =>
        match Tensor.add 1 D1 1 Ti1a D1 0 with
        | .error e => .error e
        | .ok D2 =>
          match Tensor.el_div D2 den1 D2 0 with
          | .error e => .error e
          | .ok D3 => .ok { T := T, Y := Y, D := D3.mult_ (-2) }

/-- Reading of the comment "Dice: Di = 2 * (Ti * Yi + 1.) / (Ti + Yi + 1.)" of
loss_dice.cpp line 44: one minus the sum of the Dice terms. -/
def Spec.diceValue (T Y : List ℚ) : ℚ :=
  1 - (List.zipWith (fun t y => 2 * (t * y + 1) / (t + y + 1)) T Y).sum

/-- A host tensor of shape `[2]` holding the given two elements. -/
def test_1d (x y : ℚ) : Tensor :=
  { device := DEV_CPU, ndim := 1, size := 2, shape := [2], ptr := [x, y] }

/-! ## `Tensor::load` -/

/-- The loader that `Tensor::load` hands the file to. -/
inductive Loader where
  | load_from_img
  | loadfs
  deriving DecidableEq

/-- The template `Tensor::load(const string& filename, string format)` of
include/eddl/tensor/tensor.h lines 2792-2825. `get_extension` (outside `src/`)
is a parameter; `ifs_good` is the result of `ifs.good()` on the opened file
stream. The result names the loader the call is dispatched to, or the error
raised through `msg`. -/
def Tensor.load (get_extension : String → String) (ifs_good : Bool)
    (filename format : String) : Except Msg Loader :=
  let format := if format.isEmpty then get_extension filename else format
  if !ifs_good then
    .error { text := "File not found. Check the file name and try again.",
             origin := "Tensor::load" }
  else if format = "jpg" ∨ format = "jpeg" ∨ format = "png" ∨ format = "bmp"
      ∨ format = "hdr" ∨ format = "psd" ∨ format = "tga" ∨ format = "gif"
      ∨ format = "pic" ∨ format = "pgm" ∨ format = "ppm" then
    .ok Loader.load_from_img
  else if format = "bin" ∨ format = "onnx" then
    .ok Loader.loadfs
  else if format = "npy" ∨ format = "npz" then
    .error { text := "Format deprecated in favor of python: *.\x27" ++ format ++ "\x27",
             origin := "Tensor::load" }
  else if format = "csv" ∨ format = "tsv" ∨ format = "txt" then
    .error { text := "Format deprecated in favor of python: *.\x27" ++ format ++ "\x27",
             origin := "Tensor::load" }
  else
    .error { text := "Format not implemented: *.\x27" ++ format ++ "\x27",
             origin := "Tensor::load" }

/-- The image filetypes of the documentation of `Tensor::load`
(include/eddl/tensor/tensor.h line 231). -/
def Spec.load_image_formats : List String :=
  ["jpg", "jpeg", "png", "bmp", "hdr", "psd", "tga", "gif", "pic", "pgm", "ppm"]

/-- The filetypes that the documentation of `Tensor::load`
(include/eddl/tensor/tensor.h lines 230-233) lists as accepted: the images,
"Numpy: npy, npz" and "Other: bin, onnx". -/
def Spec.load_documented_formats : List String :=
  Spec.load_image_formats ++ ["npy", "npz"] ++ ["bin", "onnx"]

/-- The filetypes that `Tensor::load` refuses as deprecated. -/
def Spec.load_deprecated_formats : List String :=
  ["npy", "npz", "csv", "tsv", "txt"]

/-- The format that `Tensor::load` dispatches on: the argument, or the file
name's extension when the argument is empty. -/
def Spec.load_effective_format (get_extension : String → String)
    (filename format : String) : String :=
  if format.isEmpty then get_extension filename else format

/-! ## Chain rule of the exponential -/

/-- Reading of the chain rule for `y = exp(x)`: the parent's gradient after
`backward` is the prior gradient `P` plus `d[i] * exp(x[i])`, with `d` the
layer's own gradient and `x` the parent's output. -/
def Spec.expChainRule (expf : ℚ → ℚ) (P d x : List ℚ) : List ℚ :=
  List.zipWith (fun c g => c + g) P (List.zipWith (fun di xi => di * expf xi) d x)

/-- The `LExp` layer constructed over `test_exp_parent` (output `[1, 2]`, prior
gradient `[10, 20]`), its own gradient then holding `[0, 0]`. -/
def test_exp_layer_zero : LExp :=
  { LExp.new test_exp_parent "exp" DEV_CPU with
    delta := { test_min_input with ptr := [0, 0] } }

/-! ## numpy exchange of binding.cpp -/

/-- A C-contiguous `float` array as `py::buffer_info` presents it: the sizes
of its dimensions and its elements in row-major order. The element count
`buf.size` is the product of the sizes. -/
structure NpArray where
  shape : List Nat
  data : List ℚ
  deriving DecidableEq

/-- The conversion `(int)` of a 64-bit value (`buf.size`, or a `size_t`
dimension): reduction modulo `2^32` into the range of a 32-bit `int`. -/
def to_int32 (n : Int) : Int := (n + 2 ^ 31) % 2 ^ 32 - 2 ^ 31

/-- Modelled from the spec: the allocation contract of the constructor call
`new Tensor(shape, dev)`, whose body is outside `src/`: "`create(shape, device)`
allocates ... storage sized to `product(shape)`; fails with `AllocationError` if
size is zero". No tensor is built for a shape whose product is zero; otherwise
the tensor is `Tensor.new shape dev`. The device is taken as available. -/
def Tensor.create (shape : List Int) (dev : Int) : Except Msg Tensor :=
  if shape.prod = 0 then
    .error { text := "AllocationError", origin := "Tensor::Tensor" }
  else
    .ok (Tensor.new shape dev)

/-- The function `tensor_from_npy(array, dev)` of binding.cpp lines 9-26:
`size = (int)buf.size;` the loop `shape.push_back((int)d)` over `buf.shape`;
`T = new Tensor(shape, dev); std::copy(ptr, ptr+size, T->ptr);`. When the
constructor fails nothing after it is executed; otherwise the copy overwrites
the first `size` elements of the tensor's storage. -/
def tensor_from_npy (a : NpArray) (dev : Int) : Except Msg Tensor :=
  let size := to_int32 ((a.shape.map (fun (d : Nat) => (d : Int))).prod)
  let shape := a.shape.map (fun (d : Nat) => to_int32 (d : Int))
  match Tensor.create shape dev with
  | .error e => .error e
  | .ok T => .ok { T with ptr := a.data.take size.toNat ++ T.ptr.drop size.toNat }

/-- The function `tensor_getdata(T)` of binding.cpp lines 29-41:
`result = py::array_t<float>(T->size); std::copy(T->ptr, T->ptr+T->size, ptr);`
`result.resize(T->shape); return result;`. Creating an array with a negative
element count, or resizing it to a shape with a negative size, is refused by
numpy and reported as an error; a resize to another element count keeps the
leading elements and pads with zeros. -/
def tensor_getdata (T : Tensor) : Except Msg NpArray :=
  if T.size < 0 then
    .error { text := "negative dimensions are not allowed", origin := "py::array_t" }
  else if T.shape.any (fun d => decide (d < 0)) then
    .error { text := "negative dimensions are not allowed", origin := "py::array::resize" }
  else
    let copied := T.ptr.take T.size.toNat
    let count := (T.shape.map Int.toNat).prod
    .ok { shape := T.shape.map Int.toNat
          data := copied.take count ++ List.replicate (count - copied.length) 0 }

/-- The array `[[1, 2, 3], [4, 5, 6]]` of shape `(2, 3)`. -/
def test_np_2x3 : NpArray := { shape := [2, 3], data := [1, 2, 3, 4, 5, 6] }

/-! ## Axis reduction: `Tensor::reduce` and `Tensor::delta_reduce` -/

/-- Coordinates of the linear index `i`, last dimension first, for the sizes
given last dimension first (row-major layout). -/
def Spec.unravelRev : List Nat → Nat → List Nat
  | [], _ => []
  | d :: ds, i => (i % d) :: Spec.unravelRev ds (i / d)

/-- Row-major coordinates of the linear index `i` in a buffer of shape `shape`. -/
def Spec.unravel (shape : List Nat) (i : Nat) : List Nat :=
  (Spec.unravelRev shape.reverse i).reverse

/-- Row-major linear index of the coordinates `idx` in a buffer of shape `shape`. -/
def Spec.ravel (shape idx : List Nat) : Nat :=
  (List.zip shape idx).foldl (fun acc p => acc * p.1 + p.2) 0

/-- The entries of a list whose position, counted from `k`, is not listed in
`axis`. -/
def Spec.dropAt {α : Type} (axis : List Int) : Nat → List α → List α
  | _, [] => []
  | k, d :: ds =>
    if (k : Int) ∈ axis then Spec.dropAt axis (k + 1) ds
    else d :: Spec.dropAt axis (k + 1) ds

/-- The output position that the source linear index `i` maps to under the axis
set: its coordinates with the reduced axes left out, as a linear index in the
shape with the reduced axes left out. -/
def Spec.outIndex (shape : List Nat) (axis : List Int) (i : Nat) : Nat :=
  Spec.ravel (Spec.dropAt axis 0 shape) (Spec.dropAt axis 0 (Spec.unravel shape i))

/-- The reduction group of the output position `j`: the "list of source linear
indices that contribute to it" of the axis reduction descriptor, in increasing
order. -/
def Spec.group (shape : List Nat) (axis : List Int) (j : Nat) : List Nat :=
  (List.range shape.prod).filter (fun i => decide (Spec.outIndex shape axis i = j))

/-- The first index of the list, in list order, at which `val` is maximal: the
scan keeps the current best and replaces it only by a strictly larger value. -/
def Spec.firstArgmax (val : Nat → ℚ) : List Nat → Nat
  | [] => 0
  | i :: rest => rest.foldl (fun best k => if val best < val k then k else best) i

/-- The first index of the list, in list order, at which `val` is minimal. -/
def Spec.firstArgmin (val : Nat → ℚ) (g : List Nat) : Nat :=
  Spec.firstArgmax (fun i => - val i) g

/-- The value that a reduction of kind `mode` gives for the group `g` of source
indices: the sum, the arithmetic mean (sum divided by the group size), the
maximum or the minimum of the source elements of the group. -/
def Spec.reduceValue (mode : String) (val : Nat → ℚ) (g : List Nat) : ℚ :=
  if mode = "sum" then (g.map val).sum
  else if mode = "mean" then (g.map val).sum / (g.length : ℚ)
  else if mode = "max" then val (Spec.firstArgmax val g)
  else val (Spec.firstArgmin val g)

/-- The origin index recorded for the group `g` by a max or min reduction: the
first element of the group, in source linear-index order, that attains the
extreme value. -/
def Spec.origin (mode : String) (val : Nat → ℚ) (g : List Nat) : Nat :=
  if mode = "max" then Spec.firstArgmax val g else Spec.firstArgmin val g

/-- Outcome of `Tensor::reduce`: the output buffer `B` and the index buffer `C`
(absent when the caller passed `NULL`). -/
structure ReduceRun where
  B : Tensor
  C : Option Tensor

/-- Modelled from the spec: `Tensor::reduce(A, B, axis, mode, keepdims, C, incB)`, declared
at tensor.h line 261, body outside `src/`. Following the axis reduction engine
of the spec: the axis set must be duplicate-free (`InvalidAxisError`) and lie in
`[0, ndim)` (`AxisOutOfRangeError`); the output shape keeps each axis not in the
set and, for the axes in the set, drops them (keepdims=false) or has size 1
(keepdims=true); operands on different devices or an output of another shape
are refused at entry; `output[j] = reduce_fn({input[i] : i maps to j})`; for max
and min the index buffer records, per group, the first source index in linear
order attaining the extreme. Of the reduction kinds, sum, mean, max and min are
represented. With `incB = 1` the result is added to `B`. -/
def Tensor.reduce (A B : Tensor) (axis : List Int) (mode : String) (keepdims : Bool)
    (C : Option Tensor) (incB : Int) : Except Msg ReduceRun :=
  if ¬ axis.Nodup then
    .error { text := "InvalidAxisError", origin := "Tensor::reduce" }
  else if axis.any (fun a => decide (a < 0 ∨ (A.ndim : Int) ≤ a)) then
    .error { text := "AxisOutOfRangeError", origin := "Tensor::reduce" }
  else if A.device ≠ B.device then
    .error { text := "Tensors in different devices", origin := "Tensor::reduce" }
  else if B.shape ≠ (if keepdims then Spec.unitAxes axis A.shape
                      else Spec.dropAxes axis A.shape) then
    .error { text := "Incompatible dims", origin := "Tensor::reduce" }
  else if mode ∉ ["sum", "mean", "max", "min"] then
    .error { text := "reduction kind not represented", origin := "Tensor::reduce" }
  else
    let shape := A.shape.map Int.toNat
    let n := (Spec.dropAt axis 0 shape).prod
    let val := fun i => A.ptr.getD i 0
    let out := (List.range n).map (fun j =>
      (if incB = 1 then B.ptr.getD j 0 else 0)
        + Spec.reduceValue mode val (Spec.group shape axis j))
    let idx := (List.range n).map (fun j =>
      ((Spec.origin mode val (Spec.group shape axis j) : Nat) : ℚ))
    .ok { B := { B with ptr := out }
          C := if mode = "max" ∨ mode = "min" then C.map (fun c => { c with ptr := idx })
               else C }

/-- Modelled from the spec: `Tensor::delta_reduce(A, B, axis, mode, keepdims, C, incB)`,
declared at tensor.h line 262, body outside `src/`. `A` is the gradient of the
reduced buffer, `B` the gradient buffer of the original shape that is produced,
`C` the index buffer recorded by `Tensor::reduce`. Following the gradient
scatter of the spec: for sum the upstream gradient of a group goes to every
contributing source position, for mean divided by the group size; for max and
min "the entire upstream gradient for a group is routed to the single recorded
origin index; all other positions in that group receive zero". With
`incB = 1` the result is added to `B`. The result is the new `B`. -/
def Tensor.delta_reduce (A B : Tensor) (axis : List Int) (mode : String) (keepdims : Bool)
    (C : Option Tensor) (incB : Int) : Except Msg Tensor :=
  if ¬ axis.Nodup then
    .error { text := "InvalidAxisError", origin := "Tensor::delta_reduce" }
  else if axis.any (fun a => decide (a < 0 ∨ (B.ndim : Int) ≤ a)) then
    .error { text := "AxisOutOfRangeError", origin := "Tensor::delta_reduce" }
  else if A.device ≠ B.device then
    .error { text := "Tensors in different devices", origin := "Tensor::delta_reduce" }
  else if A.shape ≠ (if keepdims then Spec.unitAxes axis B.shape
                      else Spec.dropAxes axis B.shape) then
    .error { text := "Incompatible dims", origin := "Tensor::delta_reduce" }
  else if mode ∉ ["sum", "mean", "max", "min"] then
    .error { text := "reduction kind not represented", origin := "Tensor::delta_reduce" }
  else if (mode = "max" ∨ mode = "min") ∧ C.isNone then
    .error { text := "missing index buffer", origin := "Tensor::delta_reduce" }
  else
    let shape := B.shape.map Int.toNat
    let idx := fun j => (C.map (fun c => c.ptr.getD j 0)).getD 0
    let contribution := fun (i : Nat) =>
      let j := Spec.outIndex shape axis i
      if mode = "sum" then A.ptr.getD j 0
      else if mode = "mean" then A.ptr.getD j 0 / ((Spec.group shape axis j).length : ℚ)
      else if idx j = (i : ℚ) then A.ptr.getD j 0 else 0
    .ok { B with ptr := (List.range shape.prod).map (fun i =>
            (if incB = 1 then B.ptr.getD i 0 else 0) + contribution i) }

/-- A host tensor of the given shape with every element equal to `v`. -/
def test_full (shape : List Int) (v : ℚ) : Tensor :=
  (Tensor.new shape DEV_CPU).fill_ v

/-! ## Auxiliary lemmas on the shape loop -/

theorem keptShape_loop (axis : List Int) (l : List Int) :
    ∀ (pre acc : List Int),
      (List.range' pre.length l.length).foldl
          (fun (os : List Int) (i : Nat) =>
            if (i : Int) ∈ axis then os else os ++ [(pre ++ l).getD i 0]) acc
        = acc ++ Spec.dropAxesFrom axis pre.length l := by
  induction l with
  | nil => intro pre acc; simp [Spec.dropAxesFrom]
  | cons d ds ih =>
    intro pre acc
    have e : pre ++ d :: ds = (pre ++ [d]) ++ ds := by simp
    have hlen : pre.length + 1 = (pre ++ [d]).length := by simp
    have hget : (pre ++ d :: ds).getD pre.length 0 = d := by
      rw [List.getD_eq_getElem?_getD, List.getElem?_append_right (Nat.le_refl _)]
      simp
    rw [List.length_cons, List.range'_succ, List.foldl_cons, hget, e, hlen, ih]
    by_cases h : (pre.length : Int) ∈ axis
    · simp [Spec.dropAxesFrom, h]
    · simp [Spec.dropAxesFrom, h]

theorem keptShape_eq_dropAxes (axis : List Int) (t : Tensor)
    (hwf : t.ndim = t.shape.length) :
    LRMin.keptShape axis t = Spec.dropAxes axis t.shape := by
  have h := keptShape_loop axis t.shape [] []
  simp only [List.length_nil, List.nil_append] at h
  unfold LRMin.keptShape Spec.dropAxes
  rw [hwf, List.range_eq_range', h]

theorem keptShape_congr (axis axis' : List Int) (t : Tensor)
    (h : ∀ i : Nat, i < t.ndim → ((i : Int) ∈ axis ↔ (i : Int) ∈ axis')) :
    LRMin.keptShape axis t = LRMin.keptShape axis' t := by
  unfold LRMin.keptShape
  apply List.foldl_ext
  intro os i hi
  have hi' : i < t.ndim := List.mem_range.mp hi
  by_cases hm : (i : Int) ∈ axis
  · simp [hm, (h i hi').mp hm]
  · have hm' : (i : Int) ∉ axis' := fun hc => hm ((h i hi').mpr hc)
    simp [hm, hm']

theorem keptShape_skip_all (axis : List Int) (shape : List Int) (xs : List Nat) :
    ∀ acc : List Int, (∀ i ∈ xs, (i : Int) ∈ axis) →
      xs.foldl (fun (os : List Int) (i : Nat) =>
          if (i : Int) ∈ axis then os else os ++ [shape.getD i 0]) acc = acc := by
  induction xs with
  | nil => intro acc _; rfl
  | cons x xs ih =>
    intro acc h
    have hx : (x : Int) ∈ axis := h x (List.mem_cons_self _ _)
    rw [List.foldl_cons, if_pos hx]
    exact ih acc (fun i hi => h i (List.mem_cons_of_mem _ hi))

theorem dropAxesFrom_sublist (axis : List Int) (l : List Int) :
    ∀ k : Nat, (Spec.dropAxesFrom axis k l).Sublist l := by
  induction l with
  | nil => intro k; simp [Spec.dropAxesFrom]
  | cons d ds ih =>
    intro k
    by_cases h : (k : Int) ∈ axis
    · simp only [Spec.dropAxesFrom, h, if_true]
      exact (ih (k + 1)).cons d
    · simp only [Spec.dropAxesFrom, h, if_false]
      exact (ih (k + 1)).cons₂ d

theorem dropAxesFrom_length (axis : List Int) (l : List Int) :
    ∀ k : Nat, (Spec.dropAxesFrom axis k l).length
        + ((List.range' k l.length).filter (fun i : Nat => decide ((i : Int) ∈ axis))).length
      = l.length := by
  induction l with
  | nil => intro k; simp [Spec.dropAxesFrom]
  | cons d ds ih =>
    intro k
    have := ih (k + 1)
    by_cases h : (k : Int) ∈ axis
    · simp only [Spec.dropAxesFrom, h, if_true, List.length_cons, List.range'_succ]
      rw [List.filter_cons_of_pos (by simpa using h)]
      simp only [List.length_cons]
      omega
    · simp only [Spec.dropAxesFrom, h, if_false, List.length_cons, List.range'_succ]
      rw [List.filter_cons_of_neg (by simpa using h)]
      omega

theorem listed_axes_count (axis : List Int) (n : Nat) (hnodup : axis.Nodup)
    (hrange : ∀ a ∈ axis, 0 ≤ a ∧ a < (n : Int)) :
    ((List.range n).filter (fun i : Nat => decide ((i : Int) ∈ axis))).length = axis.length := by
  have hperm : ((List.range n).filter (fun i : Nat => decide ((i : Int) ∈ axis))).Perm
      (axis.map Int.toNat) := by
    rw [List.perm_ext_iff_of_nodup ((List.nodup_range n).filter _)]
    · intro j
      simp only [List.mem_filter, List.mem_range, decide_eq_true_eq, List.mem_map]
      constructor
      · rintro ⟨_, hj⟩
        exact ⟨(j : Int), hj, rfl⟩
      · rintro ⟨a, ha, rfl⟩
        obtain ⟨h0, h1⟩ := hrange a ha
        have hcast : ((a.toNat : Nat) : Int) = a := Int.toNat_of_nonneg h0
        refine ⟨by omega, ?_⟩
        rw [hcast]; exact ha
    · apply hnodup.map_on
      intro x hx y hy hxy
      have hx0 := (hrange x hx).1
      have hy0 := (hrange y hy).1
      omega
  simpa using hperm.length_eq

/-! ## Shape contracts of the `LRMin` constructor -/

/-- C1. `LRMin` constructor with keepdims=false: for every well-formed input
tensor and every axis list whose entries are distinct and lie in `[0, ndim)`,
the output shape (the member `os` and the shape of the allocated output) is the
input shape with the listed axes removed and the other sizes in their original
order; exactly `axis.size()` axes are removed. -/
theorem LRMin_new_keepdims_false_shape (total_layers : Nat) (l : Layer) (axis : List Int)
    (name : String) (dev : Int)
    (hwf : l.output.ndim = l.output.shape.length)
    (hnodup : axis.Nodup)
    (hrange : ∀ a ∈ axis, 0 ≤ a ∧ a < (l.output.ndim : Int)) :
    (LRMin.new total_layers l axis false name dev).os = Spec.dropAxes axis l.output.shape
    ∧ (LRMin.new total_layers l axis false name dev).output.shape
        = Spec.dropAxes axis l.output.shape
    ∧ (LRMin.new total_layers l axis false name dev).output.shape.Sublist l.output.shape
    ∧ (LRMin.new total_layers l axis false name dev).output.ndim + axis.length
        = l.output.ndim := by
  have hos : (LRMin.new total_layers l axis false name dev).os
      = Spec.dropAxes axis l.output.shape := by
    simp [LRMin.new, keptShape_eq_dropAxes axis l.output hwf]
  have hout : (LRMin.new total_layers l axis false name dev).output.shape
      = Spec.dropAxes axis l.output.shape := by
    simp [LRMin.new, Tensor.new, keptShape_eq_dropAxes axis l.output hwf]
  refine ⟨hos, hout, ?_, ?_⟩
  · rw [hout]; exact dropAxesFrom_sublist axis l.output.shape 0
  · have hnd : (LRMin.new total_layers l axis false name dev).output.ndim
        = (Spec.dropAxes axis l.output.shape).length := by
      simp [LRMin.new, Tensor.new, keptShape_eq_dropAxes axis l.output hwf]
    have hlen := dropAxesFrom_length axis l.output.shape 0
    have hcnt := listed_axes_count axis l.output.ndim hnodup hrange
    rw [← List.range_eq_range', ← hwf, hcnt] at hlen
    rw [hnd]
    exact hlen

/-- Witness for C1: the tensor of eddl_test.cpp (shape `[4,2,3,7]`) reduced over
axes `{1,3}` with keepdims=false gives the output shape `[4,3]`. -/
theorem LRMin_new_keepdims_false_shape_witness :
    (test_A.ndim = test_A.shape.length ∧ test_axis.Nodup
      ∧ ∀ a ∈ test_axis, 0 ≤ a ∧ a < (test_A.ndim : Int))
    ∧ (LRMin.new 0 (inputLayer test_A) test_axis false "" DEV_CPU).output.shape = [4, 3] :=
  ⟨⟨by decide, by decide, by decide⟩,
    (LRMin_new_keepdims_false_shape 0 (inputLayer test_A) test_axis "" DEV_CPU
      (by decide) (by decide) (by decide)).2.1.trans (by decide)⟩

/-- C2, counterexample: with keepdims=true the tensor of shape `[4,2,3]` reduced
over axis `{1}` gets the output shape `[4,2,3]`, not `[4,1,3]`: the reduced axis
keeps the input's size 2. -/
theorem LRMin_new_keepdims_true_not_unit_axes :
    Spec.unitAxes test_axis2 test_A2.shape = [4, 1, 3]
    ∧ (LRMin.new 0 (inputLayer test_A2) test_axis2 true "" DEV_CPU).output.shape = [4, 2, 3]
    ∧ (LRMin.new 0 (inputLayer test_A2) test_axis2 true "" DEV_CPU).output.shape
        ≠ Spec.unitAxes test_axis2 test_A2.shape := by
  decide

/-- C2, amended. `LRMin` constructor with keepdims=true: for every well-formed
input tensor and every axis list, the output has the same number of dimensions
as the input and the input's size at every axis, the reduced axes included. -/
theorem LRMin_new_keepdims_true_sizes (total_layers : Nat) (l : Layer) (axis : List Int)
    (name : String) (dev : Int)
    (hwf : l.output.ndim = l.output.shape.length) :
    (LRMin.new total_layers l axis true name dev).output.ndim = l.output.ndim
    ∧ ∀ i : Nat, (LRMin.new total_layers l axis true name dev).output.shape[i]?
        = l.output.shape[i]? := by
  constructor
  · simp [LRMin.new, Tensor.new, hwf]
  · intro i
    simp [LRMin.new, Tensor.new]

/-- Witness for C2 (amended): the `[4,2,3]` tensor of eddl_test.cpp with axis `{1}`. -/
theorem LRMin_new_keepdims_true_sizes_witness :
    test_A2.ndim = test_A2.shape.length
    ∧ ((LRMin.new 0 (inputLayer test_A2) test_axis2 true "" DEV_CPU).output.ndim = test_A2.ndim
      ∧ ∀ i : Nat, (LRMin.new 0 (inputLayer test_A2) test_axis2 true "" DEV_CPU).output.shape[i]?
          = test_A2.shape[i]?) :=
  ⟨by decide,
    LRMin_new_keepdims_true_sizes 0 (inputLayer test_A2) test_axis2 "" DEV_CPU (by decide)⟩

/-- With keepdims=true the constructor of `LRMin` takes the input's shape as
`os` and allocates the output and the delta with it, for every input and axis
list. -/
theorem LRMin_new_keepdims_true_input_shape (total_layers : Nat) (l : Layer)
    (axis : List Int) (name : String) (dev : Int) :
    (LRMin.new total_layers l axis true name dev).os = l.output.shape
    ∧ (LRMin.new total_layers l axis true name dev).output.shape = l.output.shape
    ∧ (LRMin.new total_layers l axis true name dev).delta.shape = l.output.shape
    ∧ (LRMin.new total_layers l axis true name dev).output.ndim = l.output.shape.length
    ∧ (LRMin.new total_layers l axis true name dev).delta.ndim = l.output.shape.length := by
  simp [LRMin.new, Tensor.new]

/-- C4, counterexample: the `[4,2,3]` tensor reduced over all its axes `{0,1,2}`
with keepdims=true gets an output shape of product 24 and an output of 24
elements, not a single scalar. -/
theorem LRMin_new_all_axes_keepdims_true_not_scalar :
    (∀ i : Nat, i < test_A2.ndim → (i : Int) ∈ ([0, 1, 2] : List Int))
    ∧ (LRMin.new 0 (inputLayer test_A2) [0, 1, 2] true "" DEV_CPU).output.shape.prod = 24
    ∧ (LRMin.new 0 (inputLayer test_A2) [0, 1, 2] true "" DEV_CPU).output.size = 24
    ∧ (LRMin.new 0 (inputLayer test_A2) [0, 1, 2] true "" DEV_CPU).output.shape.prod ≠ 1 := by
  decide

/-- C4, amended. When the axis list contains every dimension index of the
input: with keepdims=false the output shape is empty, its product is 1 and the
output buffer holds a single element; with keepdims=true the output shape is
the input shape, so its product is the input's shape product. -/
theorem LRMin_new_all_axes (total_layers : Nat) (l : Layer) (axis : List Int)
    (name : String) (dev : Int)
    (hall : ∀ i : Nat, i < l.output.ndim → (i : Int) ∈ axis) :
    ((LRMin.new total_layers l axis false name dev).output.shape = []
      ∧ (LRMin.new total_layers l axis false name dev).output.shape.prod = 1
      ∧ (LRMin.new total_layers l axis false name dev).output.size = 1
      ∧ (LRMin.new total_layers l axis false name dev).output.ptr.length = 1)
    ∧ ((LRMin.new total_layers l axis true name dev).output.shape = l.output.shape
      ∧ (LRMin.new total_layers l axis true name dev).output.shape.prod
          = l.output.shape.prod
      ∧ (LRMin.new total_layers l axis true name dev).output.size = l.output.shape.prod) := by
  have hk : LRMin.keptShape axis l.output = [] := by
    unfold LRMin.keptShape
    exact keptShape_skip_all axis l.output.shape (List.range l.output.ndim) []
      (fun i hi => hall i (List.mem_range.mp hi))
  constructor
  · simp [LRMin.new, Tensor.new, hk]
  · simp [LRMin.new, Tensor.new]

/-- Witness for C4 (amended): the `[4,2,3]` tensor with the axis list `{0,1,2}`. -/
theorem LRMin_new_all_axes_witness :
    (∀ i : Nat, i < test_A2.ndim → (i : Int) ∈ ([0, 1, 2] : List Int))
    ∧ (LRMin.new 0 (inputLayer test_A2) [0, 1, 2] false "" DEV_CPU).output.size = 1
    ∧ (LRMin.new 0 (inputLayer test_A2) [0, 1, 2] true "" DEV_CPU).output.size = 24 :=
  ⟨by decide,
    (LRMin_new_all_axes 0 (inputLayer test_A2) [0, 1, 2] "" DEV_CPU (by decide)).1.2.2.1,
    (LRMin_new_all_axes 0 (inputLayer test_A2) [0, 1, 2] "" DEV_CPU (by decide)).2.2.2.trans
      (by decide)⟩

/-- C5, counterexample: constructing `LRMin` over the `[4,2,3]` tensor with the
axis list `{1,1}`, which names axis 1 twice, does not fail: it yields the layer
that stores `{1,1}` and has the output shape `[4,3]`. -/
theorem LRMin_new_duplicate_axis_yields_layer :
    ¬ ([1, 1] : List Int).Nodup
    ∧ LRMin.new 0 (inputLayer test_A2) [1, 1] false "rmin" DEV_CPU
      = { name := "rmin"
          dev := DEV_CPU
          input := [test_A2]
          output := Tensor.new [4, 3] DEV_CPU
          delta := Tensor.new [4, 3] DEV_CPU
          axis := [1, 1]
          keepdims := false
          os := [4, 3]
          parent := [inputLayer test_A2]
          layers := []
          orig := none } := by
  decide

/-- C5, amended. Constructing `LRMin` with an axis list that contains the same
axis index twice does not fail: for every input and axis list the constructor
yields a layer that stores the list as given, and its output shape and delta
shape are those obtained from the list with the repetitions removed. -/
theorem LRMin_new_duplicates_ignored (total_layers : Nat) (l : Layer) (axis : List Int)
    (keepdims : Bool) (name : String) (dev : Int) :
    (LRMin.new total_layers l axis keepdims name dev).axis = axis
    ∧ (LRMin.new total_layers l axis keepdims name dev).output.shape
        = (LRMin.new total_layers l axis.dedup keepdims name dev).output.shape
    ∧ (LRMin.new total_layers l axis keepdims name dev).delta.shape
        = (LRMin.new total_layers l axis.dedup keepdims name dev).delta.shape := by
  have hk : LRMin.keptShape axis l.output = LRMin.keptShape axis.dedup l.output :=
    keptShape_congr axis axis.dedup l.output (fun i _ => List.mem_dedup.symm)
  cases keepdims <;> simp [LRMin.new, Tensor.new, hk]

/-- C6, counterexample: constructing `LRMin` over the `[4,2,3]` tensor with the
axis list `{5}` or `{-1}` does not fail: the out-of-range entry is ignored and
the output shape is `[4,2,3]`, the same as for the empty axis list. -/
theorem LRMin_new_out_of_range_axis_ignored :
    (test_A2.ndim = 3)
    ∧ (LRMin.new 0 (inputLayer test_A2) [5] false "" DEV_CPU).output.shape = [4, 2, 3]
    ∧ (LRMin.new 0 (inputLayer test_A2) [-1] false "" DEV_CPU).output.shape = [4, 2, 3]
    ∧ (LRMin.new 0 (inputLayer test_A2) [5] false "" DEV_CPU).output.shape
        = (LRMin.new 0 (inputLayer test_A2) [] false "" DEV_CPU).output.shape := by
  decide

/-- C6, amended. Constructing `LRMin` with an axis index that is negative or
`>= ndim` does not fail: for every input and axis list the constructor yields
a layer that stores the list as given, and such an index has no effect on the
output shape, which is the one obtained from the entries lying in `[0, ndim)`. -/
theorem LRMin_new_out_of_range_dropped (total_layers : Nat) (l : Layer) (axis : List Int)
    (keepdims : Bool) (name : String) (dev : Int) :
    (LRMin.new total_layers l axis keepdims name dev).axis = axis
    ∧ (LRMin.new total_layers l axis keepdims name dev).output.shape
        = (LRMin.new total_layers l
            (axis.filter (fun a => decide (0 ≤ a ∧ a < (l.output.ndim : Int))))
            keepdims name dev).output.shape := by
  have hk : LRMin.keptShape axis l.output
      = LRMin.keptShape (axis.filter (fun a => decide (0 ≤ a ∧ a < (l.output.ndim : Int))))
          l.output := by
    apply keptShape_congr
    intro i hi
    simp only [List.mem_filter, decide_eq_true_eq]
    constructor
    · intro h
      exact ⟨h, by omega, by omega⟩
    · intro h
      exact h.1
  cases keepdims <;> simp [LRMin.new, Tensor.new, hk]

/-- C7. The output shape computed by the `LRMin` constructor depends only on
the set of reduced axes: for every input and keepdims value, two axis lists
that are permutations of each other give the same `os`, output shape and delta
shape. -/
theorem LRMin_new_axis_order_irrelevant (total_layers : Nat) (l : Layer)
    (axis1 axis2 : List Int) (keepdims : Bool) (name : String) (dev : Int)
    (hperm : axis1.Perm axis2) :
    (LRMin.new total_layers l axis1 keepdims name dev).os
        = (LRMin.new total_layers l axis2 keepdims name dev).os
    ∧ (LRMin.new total_layers l axis1 keepdims name dev).output.shape
        = (LRMin.new total_layers l axis2 keepdims name dev).output.shape
    ∧ (LRMin.new total_layers l axis1 keepdims name dev).delta.shape
        = (LRMin.new total_layers l axis2 keepdims name dev).delta.shape := by
  have hk : LRMin.keptShape axis1 l.output = LRMin.keptShape axis2 l.output :=
    keptShape_congr axis1 axis2 l.output (fun i _ => hperm.mem_iff)
  cases keepdims <;> simp [LRMin.new, Tensor.new, hk]

/-- Witness for C7: the axis lists `{1,3}` and `{3,1}` on the `[4,2,3,7]` tensor. -/
theorem LRMin_new_axis_order_irrelevant_witness :
    ([1, 3] : List Int).Perm [3, 1]
    ∧ (LRMin.new 0 (inputLayer test_A) [1, 3] false "" DEV_CPU).output.shape
        = (LRMin.new 0 (inputLayer test_A) [3, 1] false "" DEV_CPU).output.shape :=
  ⟨List.Perm.swap 3 1 [],
    (LRMin_new_axis_order_irrelevant 0 (inputLayer test_A) [1, 3] [3, 1] false "" DEV_CPU
      (List.Perm.swap 3 1 [])).2.1⟩

theorem dropAxesFrom_nil_axis (l : List Int) :
    ∀ k : Nat, Spec.dropAxesFrom [] k l = l := by
  induction l with
  | nil => intro k; rfl
  | cons d ds ih => intro k; simp [Spec.dropAxesFrom, ih]

/-- C8. `LRMin` constructor with an empty axis list: for every well-formed
input tensor and both keepdims values, the output shape (and the delta shape)
equals the input shape. -/
theorem LRMin_new_empty_axis (total_layers : Nat) (l : Layer) (keepdims : Bool)
    (name : String) (dev : Int)
    (hwf : l.output.ndim = l.output.shape.length) :
    (LRMin.new total_layers l [] keepdims name dev).output.shape = l.output.shape
    ∧ (LRMin.new total_layers l [] keepdims name dev).delta.shape = l.output.shape
    ∧ (LRMin.new total_layers l [] keepdims name dev).output.size = l.output.shape.prod := by
  have hk : LRMin.keptShape [] l.output = l.output.shape := by
    rw [keptShape_eq_dropAxes [] l.output hwf]
    exact dropAxesFrom_nil_axis l.output.shape 0
  cases keepdims <;> simp [LRMin.new, Tensor.new, hk]

/-- Witness for C8: the `[4,2,3,7]` tensor with an empty axis list, keepdims=false. -/
theorem LRMin_new_empty_axis_witness :
    test_A.ndim = test_A.shape.length
    ∧ (LRMin.new 0 (inputLayer test_A) [] false "" DEV_CPU).output.shape = [4, 2, 3, 7] :=
  ⟨by decide,
    (LRMin_new_empty_axis 0 (inputLayer test_A) false "" DEV_CPU (by decide)).1.trans
      (by decide)⟩

/-! ## `LRMin::forward` -/

theorem LRMin_forward_no_sublayers {σ : Type} (callForward : Layer → σ → σ) (L : LRMin)
    (s : σ) (h : L.layers = []) : LRMin.forward callForward L s = s := by
  simp [LRMin.forward, h]

theorem LRMin_new_output_ignores_parent_data (total_layers : Nat) (l l' : Layer)
    (axis : List Int) (keepdims : Bool) (name : String) (dev : Int)
    (hshape : l.output.shape = l'.output.shape) (hndim : l.output.ndim = l'.output.ndim) :
    (LRMin.new total_layers l axis keepdims name dev).output
      = (LRMin.new total_layers l' axis keepdims name dev).output := by
  cases keepdims <;> simp [LRMin.new, LRMin.keptShape, hshape, hndim]

/-- C9, evaluation at the failing input. The layer object being the program
state, `forward()` on the `LRMin` freshly constructed over a parent output
`[1, 2]` of shape `[2]` with axis `{0}` returns the layer unchanged, whatever
the sub-layer calls would do: its single output element is the 0 left by the
allocation, not the minimum 1 of the parent's elements. -/
theorem LRMin_forward_fresh_output_not_min (callForward : Layer → LRMin → LRMin) :
    LRMin.forward callForward
        (LRMin.new 0 (inputLayer test_min_input) [0] false "" DEV_CPU)
        (LRMin.new 0 (inputLayer test_min_input) [0] false "" DEV_CPU)
      = LRMin.new 0 (inputLayer test_min_input) [0] false "" DEV_CPU
    ∧ (LRMin.forward callForward
        (LRMin.new 0 (inputLayer test_min_input) [0] false "" DEV_CPU)
        (LRMin.new 0 (inputLayer test_min_input) [0] false "" DEV_CPU)).output.ptr = [0]
    ∧ (inputLayer test_min_input).output.ptr = [1, 2]
    ∧ (LRMin.forward callForward
        (LRMin.new 0 (inputLayer test_min_input) [0] false "" DEV_CPU)
        (LRMin.new 0 (inputLayer test_min_input) [0] false "" DEV_CPU)).output.ptr
        ≠ [min 1 2] := by
  have hf := LRMin_forward_no_sublayers callForward
    (LRMin.new 0 (inputLayer test_min_input) [0] false "" DEV_CPU)
    (LRMin.new 0 (inputLayer test_min_input) [0] false "" DEV_CPU) rfl
  rw [hf]
  exact ⟨rfl, by decide, by decide, by decide⟩

/-! ## Gradient buffers -/

/-- C10. After constructing an `LExp` or an `LRMin` layer, the gradient buffer
`delta` has the same shape and device as the output buffer; for `LExp` both
shapes equal the shape of the parent's output. -/
theorem layer_new_delta_matches_output (total_layers : Nat) (l : Layer) (axis : List Int)
    (keepdims : Bool) (name : String) (dev : Int) :
    ((LExp.new l name dev).delta.shape = (LExp.new l name dev).output.shape
      ∧ (LExp.new l name dev).delta.device = (LExp.new l name dev).output.device
      ∧ (LExp.new l name dev).output.shape = l.output.shape
      ∧ (LExp.new l name dev).delta.shape = l.output.shape)
    ∧ ((LRMin.new total_layers l axis keepdims name dev).delta.shape
          = (LRMin.new total_layers l axis keepdims name dev).output.shape
      ∧ (LRMin.new total_layers l axis keepdims name dev).delta.device
          = (LRMin.new total_layers l axis keepdims name dev).output.device
      ∧ (LRMin.new total_layers l axis keepdims name dev).delta.shape
          = (LRMin.new total_layers l axis keepdims name dev).os) := by
  refine ⟨⟨rfl, rfl, rfl, rfl⟩, rfl, rfl, rfl⟩

/-! ## `LExp::forward` and `LExp::backward`: contracts -/

theorem Tensor_el_mult_inc_ok (A B C : Tensor)
    (hdev1 : A.device = B.device) (hdev2 : A.device = C.device)
    (heq1 : Tensor.eqsize A B = true) (heq2 : Tensor.eqsize A C = true) :
    Tensor.el_mult A B C 1
      = .ok { C with ptr := List.zipWith (fun c ab => c + ab) C.ptr
                              (List.zipWith (fun a b => a * b) A.ptr B.ptr) } := by
  unfold Tensor.el_mult
  rw [if_neg (by rintro (h | h); exact h hdev1; exact h hdev2),
    if_neg (by simp [heq1, heq2]), if_pos rfl]

theorem Tensor_copy_ok (A B : Tensor) (hdev : A.device = B.device)
    (heq : Tensor.eqsize A B = true) :
    Tensor.copy A B = .ok { B with ptr := A.ptr } := by
  unfold Tensor.copy
  rw [if_neg (fun h => h hdev), if_neg (by simp [heq])]

/-- C11. `LExp::backward` accumulates into the parent's gradient buffer: when
the three buffers are on one device and have one shape and element count, the
call succeeds and, for every prior content of `parent.delta`, the content
afterwards is the prior content plus `LExp.backward_contribution`, position by
position; the contribution is computed from the layer's own `delta` and the
parent's output only, and the parent's output is untouched. -/
theorem LExp_backward_accumulates (expf : ℚ → ℚ) (n : LExp) (p : Layer) (ps : List Layer)
    (hparent : n.parent = p :: ps)
    (hdev1 : n.delta.device = p.output.device) (hdev2 : n.delta.device = p.delta.device)
    (heq1 : Tensor.eqsize n.delta p.output = true)
    (heq2 : Tensor.eqsize n.delta p.delta = true)
    (hlen1 : n.delta.ptr.length = p.delta.ptr.length)
    (hlen2 : p.output.ptr.length = p.delta.ptr.length) :
    ∃ n1 p1, LExp.backward expf n = .ok n1 ∧ n1.parent = p1 :: ps
      ∧ p1.output = p.output
      ∧ p1.delta.ptr = List.zipWith (fun c g => c + g) p.delta.ptr
          (LExp.backward_contribution expf n.delta.ptr p.output.ptr)
      ∧ p1.delta.ptr.length = p.delta.ptr.length
      ∧ ∀ i : Nat, i < p.delta.ptr.length →
          p1.delta.ptr.getD i 0 = p.delta.ptr.getD i 0
            + expf (n.delta.ptr.getD i 0) * p.output.ptr.getD i 0 := by
  have hmul := Tensor_el_mult_inc_ok (n.delta.set_exp expf) p.output p.delta
    hdev1 hdev2 heq1 heq2
  refine ⟨{ n with
            delta := n.delta.set_exp expf
            parent := { p with
              delta := { p.delta with
                ptr := List.zipWith (fun c ab => c + ab) p.delta.ptr
                  (List.zipWith (fun a b => a * b) (n.delta.set_exp expf).ptr p.output.ptr) } }
              :: ps },
    { p with
        delta := { p.delta with
          ptr := List.zipWith (fun c ab => c + ab) p.delta.ptr
            (List.zipWith (fun a b => a * b) (n.delta.set_exp expf).ptr p.output.ptr) } },
    ?_, rfl, rfl, rfl, ?_, ?_⟩
  · simp only [LExp.backward, hparent, hmul]
  · simp [Tensor.set_exp, hlen1, hlen2]
  · intro i hi
    have h1 : i < n.delta.ptr.length := by omega
    have h2 : i < p.output.ptr.length := by omega
    simp [Tensor.set_exp, List.getD_eq_getElem?_getD, List.getElem?_eq_getElem, hi, h1, h2]

/-- Witness for C11: the layer `test_exp_layer` (own gradient `[1, 1]`, parent
output `[1, 2]`, prior parent gradient `[10, 20]`) with the stand-in
`expf_sample`. -/
theorem LExp_backward_accumulates_witness :
    (test_exp_layer.parent = test_exp_parent :: []
      ∧ test_exp_layer.delta.device = test_exp_parent.output.device
      ∧ test_exp_layer.delta.device = test_exp_parent.delta.device
      ∧ Tensor.eqsize test_exp_layer.delta test_exp_parent.output = true
      ∧ Tensor.eqsize test_exp_layer.delta test_exp_parent.delta = true
      ∧ test_exp_layer.delta.ptr.length = test_exp_parent.delta.ptr.length
      ∧ test_exp_parent.output.ptr.length = test_exp_parent.delta.ptr.length)
    ∧ ∃ n1 p1, LExp.backward expf_sample test_exp_layer = .ok n1 ∧ n1.parent = p1 :: []
      ∧ p1.output = test_exp_parent.output
      ∧ p1.delta.ptr = List.zipWith (fun c g => c + g) test_exp_parent.delta.ptr
          (LExp.backward_contribution expf_sample test_exp_layer.delta.ptr
            test_exp_parent.output.ptr)
      ∧ p1.delta.ptr.length = test_exp_parent.delta.ptr.length
      ∧ ∀ i : Nat, i < test_exp_parent.delta.ptr.length →
          p1.delta.ptr.getD i 0 = test_exp_parent.delta.ptr.getD i 0
            + expf_sample (test_exp_layer.delta.ptr.getD i 0)
              * test_exp_parent.output.ptr.getD i 0 :=
  ⟨⟨by decide, by decide, by decide, by decide, by decide, by decide, by decide⟩,
    LExp_backward_accumulates expf_sample test_exp_layer test_exp_parent []
      (by decide) (by decide) (by decide) (by decide) (by decide) (by decide) (by decide)⟩

/-- C12, evaluation at the failing input. On `test_exp_layer` (own gradient
`[1, 1]`, parent output `[1, 2]`, prior parent gradient `[10, 20]`) two
consecutive `backward()` calls succeed, but the first rewrites the layer's own
gradient to `[expf 1, expf 1]` and the second to `[expf (expf 1), expf (expf 1)]`,
so the first call adds `expf 1 * x` to the parent and the second adds
`expf (expf 1) * x`; only the layer's output is left as it was. -/
theorem LExp_backward_rewrites_own_delta (expf : ℚ → ℚ) :
    ∃ n1 n2 p1 p2, LExp.backward expf test_exp_layer = .ok n1
      ∧ LExp.backward expf n1 = .ok n2
      ∧ n1.parent = [p1] ∧ n2.parent = [p2]
      ∧ test_exp_layer.delta.ptr = [1, 1]
      ∧ n1.delta.ptr = [expf 1, expf 1]
      ∧ n2.delta.ptr = [expf (expf 1), expf (expf 1)]
      ∧ n1.output = test_exp_layer.output
      ∧ p1.delta.ptr = [10 + expf 1 * 1, 20 + expf 1 * 2]
      ∧ p2.delta.ptr = [10 + expf 1 * 1 + expf (expf 1) * 1,
                        20 + expf 1 * 2 + expf (expf 1) * 2] := by
  have h1 : LExp.backward expf test_exp_layer
      = .ok { test_exp_layer with
          delta := { test_min_input with ptr := [expf 1, expf 1] }
          parent := [{ test_exp_parent with
            delta := { test_min_input with ptr := [10 + expf 1 * 1, 20 + expf 1 * 2] } }] } := by
    simp [LExp.backward, test_exp_layer, LExp.new, test_exp_parent, test_min_input,
      Tensor.el_mult, Tensor.set_exp, Tensor.eqsize]
  have h2 : LExp.backward expf
        { test_exp_layer with
          delta := { test_min_input with ptr := [expf 1, expf 1] }
          parent := [{ test_exp_parent with
            delta := { test_min_input with ptr := [10 + expf 1 * 1, 20 + expf 1 * 2] } }] }
      = .ok { test_exp_layer with
          delta := { test_min_input with ptr := [expf (expf 1), expf (expf 1)] }
          parent := [{ test_exp_parent with
            delta := { test_min_input with
              ptr := [10 + expf 1 * 1 + expf (expf 1) * 1,
                      20 + expf 1 * 2 + expf (expf 1) * 2] } }] } := by
    simp [LExp.backward, test_exp_layer, LExp.new, test_exp_parent, test_min_input,
      Tensor.el_mult, Tensor.set_exp, Tensor.eqsize]
  exact ⟨_, _, _, _, h1, h2, rfl, rfl, rfl, rfl, rfl, rfl, rfl, rfl⟩

/-- C13. `LExp::forward` is idempotent: when the parent's output and the
layer's output are on one device and have one shape, `forward()` succeeds, a
second `forward()` with the parent unchanged returns the very same layer
state, the output holds `expf x[i]` at every position `i` of the parent's
output `x`, and the parent (its output included) is unchanged. -/
theorem LExp_forward_idempotent (expf : ℚ → ℚ) (n : LExp) (p : Layer) (ps : List Layer)
    (hparent : n.parent = p :: ps)
    (hdev : p.output.device = n.output.device)
    (heq : Tensor.eqsize p.output n.output = true) :
    ∃ n1, LExp.forward expf n = .ok n1 ∧ LExp.forward expf n1 = .ok n1
      ∧ n1.output.ptr = p.output.ptr.map expf
      ∧ n1.output.ptr.length = p.output.ptr.length
      ∧ (∀ i : Nat, i < p.output.ptr.length →
          n1.output.ptr.getD i 0 = expf (p.output.ptr.getD i 0))
      ∧ n1.parent = p :: ps := by
  have hcopy := Tensor_copy_ok p.output n.output hdev heq
  have hcopy2 := Tensor_copy_ok p.output
    (Tensor.set_exp expf { n.output with ptr := p.output.ptr }) hdev heq
  refine ⟨{ n with output := Tensor.set_exp expf { n.output with ptr := p.output.ptr } },
    ?_, ?_, rfl, ?_, ?_, hparent⟩
  · simp only [LExp.forward, hparent, hcopy]
  · simp only [LExp.forward, hparent, hcopy2]
    rfl
  · simp [Tensor.set_exp]
  · intro i hi
    simp [Tensor.set_exp, List.getD_eq_getElem?_getD, List.getElem?_eq_getElem, hi]

/-- Witness for C13: the layer `test_exp_layer` over `test_exp_parent` with the
stand-in `expf_sample`. -/
theorem LExp_forward_idempotent_witness :
    (test_exp_layer.parent = test_exp_parent :: []
      ∧ test_exp_parent.output.device = test_exp_layer.output.device
      ∧ Tensor.eqsize test_exp_parent.output test_exp_layer.output = true)
    ∧ ∃ n1, LExp.forward expf_sample test_exp_layer = .ok n1
      ∧ LExp.forward expf_sample n1 = .ok n1
      ∧ n1.output.ptr = test_exp_parent.output.ptr.map expf_sample
      ∧ n1.output.ptr.length = test_exp_parent.output.ptr.length
      ∧ (∀ i : Nat, i < test_exp_parent.output.ptr.length →
          n1.output.ptr.getD i 0 = expf_sample (test_exp_parent.output.ptr.getD i 0))
      ∧ n1.parent = test_exp_parent :: [] :=
  ⟨⟨by decide, by decide, by decide⟩,
    LExp_forward_idempotent expf_sample test_exp_layer test_exp_parent []
      (by decide) (by decide) (by decide)⟩

/-! ## `share` and `clone`: contracts -/

/-- C14. `LRMin::clone(c, bs, p, todev)` with a non-empty `p` returns a layer
(never null) with the original's axis list and keepdims flag, bound to device
`todev`, with `p[0]` as its only parent and the original recorded as `orig`;
and whenever the original was constructed over a parent whose output has the
shape of `p[0]`'s output, the clone's output shape equals the original's. -/
theorem LRMin_clone_preserves_configuration (total_layers : Nat) (L : LRMin) (c bs : Int)
    (p0 : Layer) (ps : List Layer) (todev : Int) :
    ∃ n : LRMin, LRMin.clone total_layers L c bs (p0 :: ps) todev = .ok (some n)
      ∧ n.axis = L.axis ∧ n.keepdims = L.keepdims
      ∧ n.dev = todev ∧ n.output.device = todev ∧ n.delta.device = todev
      ∧ n.parent = [p0] ∧ n.orig = some L.toLayer
      ∧ ∀ (tl0 : Nat) (l0 : Layer) (name0 : String) (dev0 : Int),
          L = LRMin.new tl0 l0 L.axis L.keepdims name0 dev0 →
          Tensor.eqsize p0.output l0.output = true →
          n.output.shape = L.output.shape ∧ n.os = L.os := by
  refine ⟨_, rfl, rfl, rfl, rfl, rfl, rfl, rfl, rfl, ?_⟩
  intro tl0 l0 name0 dev0 hL heq
  have hs : p0.output.ndim = l0.output.ndim ∧ p0.output.shape = l0.output.shape := by
    simpa [Tensor.eqsize] using heq
  have hk : ∀ ax, LRMin.keptShape ax p0.output = LRMin.keptShape ax l0.output := by
    intro ax; simp [LRMin.keptShape, hs.1, hs.2]
  have hos : (LRMin.new total_layers p0 L.axis L.keepdims
        ("clone_" ++ toString c ++ L.name) todev).os = L.os := by
    rw [hL]
    cases hkd : L.keepdims <;> simp [LRMin.new, hk, hs.2, hkd]
  have hos0 : L.output.shape = L.os := by
    rw [hL]; rfl
  constructor
  · rw [hos0, ← hos]; rfl
  · exact hos

/-- Witness for C14: the `LRMin` layer built over the `[4,2,3,7]` tensor with
axes `{1,3}` is cloned onto device 1000 over a parent of the same output shape. -/
theorem LRMin_clone_preserves_configuration_witness :
    ∃ n : LRMin,
      LRMin.clone 0 (LRMin.new 0 (inputLayer test_A) test_axis false "" DEV_CPU) 1 4
        [inputLayer (Tensor.new [4, 2, 3, 7] DEV_GPU)] DEV_GPU = .ok (some n)
      ∧ n.axis = test_axis ∧ n.keepdims = false ∧ n.dev = DEV_GPU
      ∧ n.parent = [inputLayer (Tensor.new [4, 2, 3, 7] DEV_GPU)]
      ∧ n.output.shape = [4, 3] := by
  obtain ⟨n, hn, hax, hkd, hdev, _, _, hpar, _, hshape⟩ :=
    LRMin_clone_preserves_configuration 0
      (LRMin.new 0 (inputLayer test_A) test_axis false "" DEV_CPU) 1 4
      (inputLayer (Tensor.new [4, 2, 3, 7] DEV_GPU)) [] DEV_GPU
  refine ⟨n, hn, hax, hkd, hdev, hpar, ?_⟩
  exact (hshape 0 (inputLayer test_A) "" DEV_CPU rfl (by decide)).1.trans (by decide)

/-- C15, evaluation. `LRMin::share(c, bs, p)` with a non-empty `p` returns the
null pointer for every layer, counter value, `c`, `bs` and `p`, whereas the
sibling `LExp::share` returns the layer it builds over `p[0]` on the original's
device. -/
theorem LRMin_share_returns_null (total_layers : Nat) (L : LRMin) (E : LExp) (c bs : Int)
    (p0 : Layer) (ps : List Layer) :
    LRMin.share total_layers L c bs (p0 :: ps) = .ok none
    ∧ ∃ m : LExp, LExp.share E c bs (p0 :: ps) = .ok (some m)
        ∧ m.dev = E.dev ∧ m.parent = [p0] ∧ m.orig = some E.toLayer :=
  ⟨rfl, _, rfl, rfl, rfl, rfl⟩

/-! ## Activation routines: entry checks and locking -/

theorem eqsize_false_of_shape_ne (A B : Tensor) (h : A.shape ≠ B.shape) :
    Tensor.eqsize A B = false := by
  simp [Tensor.eqsize, h]

theorem eqsize_true_of_eq (A B : Tensor) (hn : A.ndim = B.ndim) (hs : A.shape = B.shape) :
    Tensor.eqsize A B = true := by
  simp [Tensor.eqsize, hn, hs]

/-- C16. For each of `ReLu`, `D_ReLu`, `Softmax` and `D_Softmax`: if any two
tensor operands differ in device or in shape (for the three-operand routines
also when only `I` and `PD` differ), the routine raises an error with no event
executed before it (no lock taken, no write) and the destination unchanged. -/
theorem activation_mismatch_rejected (cGPU : Bool)
    (k2 g2 : Tensor → Tensor → Tensor) (k3 g3 : Tensor → Tensor → Tensor → Tensor)
    (kb gb : Tensor → Tensor → Tensor → Tensor × List Event)
    (A B D I PD : Tensor)
    (h2 : A.device ≠ B.device ∨ A.shape ≠ B.shape)
    (h3 : D.device ≠ I.device ∨ D.device ≠ PD.device ∨ I.device ≠ PD.device
        ∨ D.shape ≠ I.shape ∨ D.shape ≠ PD.shape ∨ I.shape ≠ PD.shape) :
    ((ReLu cGPU k2 g2 A B).error ≠ none ∧ (ReLu cGPU k2 g2 A B).trace = []
        ∧ (ReLu cGPU k2 g2 A B).dest = B)
    ∧ ((Softmax cGPU k2 g2 A B).error ≠ none ∧ (Softmax cGPU k2 g2 A B).trace = []
        ∧ (Softmax cGPU k2 g2 A B).dest = B)
    ∧ ((D_ReLu cGPU k3 g3 D I PD).error ≠ none ∧ (D_ReLu cGPU k3 g3 D I PD).trace = []
        ∧ (D_ReLu cGPU k3 g3 D I PD).dest = PD)
    ∧ ((D_Softmax cGPU kb gb D I PD).error ≠ none ∧ (D_Softmax cGPU kb gb D I PD).trace = []
        ∧ (D_Softmax cGPU kb gb D I PD).dest = PD) := by
  have h2' : A.device ≠ B.device ∨ Tensor.eqsize A B = false := by
    rcases h2 with h | h
    · exact Or.inl h
    · exact Or.inr (eqsize_false_of_shape_ne A B h)
  have h3' : (D.device ≠ I.device ∨ D.device ≠ PD.device)
      ∨ (Tensor.eqsize D I = false ∨ Tensor.eqsize D PD = false) := by
    by_cases hd1 : D.device = I.device
    · by_cases hd2 : D.device = PD.device
      · by_cases hs1 : D.shape = I.shape
        · by_cases hs2 : D.shape = PD.shape
          · exfalso
            rcases h3 with h | h | h | h | h | h
            · exact h hd1
            · exact h hd2
            · exact h (hd1.symm.trans hd2)
            · exact h hs1
            · exact h hs2
            · exact h (hs1.symm.trans hs2)
          · exact Or.inr (Or.inr (eqsize_false_of_shape_ne D PD hs2))
        · exact Or.inr (Or.inl (eqsize_false_of_shape_ne D I hs1))
      · exact Or.inl (Or.inr hd2)
    · exact Or.inl (Or.inl hd1)
  refine ⟨?_, ?_, ?_, ?_⟩
  · unfold ReLu
    rcases h2' with h | h
    · simp [h]
    · by_cases hd : A.device = B.device <;> simp [h, hd]
  · unfold Softmax
    rcases h2' with h | h
    · simp [h]
    · by_cases hd : A.device = B.device <;> simp [h, hd]
  · unfold D_ReLu
    rcases h3' with h | h
    · rw [if_pos h]; simp
    · by_cases hd : D.device ≠ I.device ∨ D.device ≠ PD.device
      · rw [if_pos hd]; simp
      · rw [if_neg hd, if_pos (by rcases h with h | h <;> simp [h])]; simp
  · unfold D_Softmax
    rcases h3' with h | h
    · rw [if_pos h]; simp
    · by_cases hd : D.device ≠ I.device ∨ D.device ≠ PD.device
      · rw [if_pos hd]; simp
      · rw [if_neg hd, if_pos (by rcases h with h | h <;> simp [h])]; simp

/-- Witness for C16: `A` and `B` of one shape on different devices; `D`, `I`,
`PD` on one device, the hypothesis being discharged by `I` (shape `[1,2]`) and
`PD` (shape `[4,2,3]`) having different shapes. -/
theorem activation_mismatch_rejected_witness :
    ((Tensor.new [1, 2] DEV_CPU).device ≠ (Tensor.new [1, 2] DEV_GPU).device)
    ∧ ((test_2d 0 1).shape ≠ test_A2.shape)
    ∧ (D_Softmax false (fun _ _ pd => (pd, [Event.write Buf.PD])) (fun _ _ pd => (pd, []))
          (test_2d 1 0) (test_2d 0 1) test_A2).error ≠ none
    ∧ (D_Softmax false (fun _ _ pd => (pd, [Event.write Buf.PD])) (fun _ _ pd => (pd, []))
          (test_2d 1 0) (test_2d 0 1) test_A2).trace = []
    ∧ (D_ReLu false (fun _ _ pd => pd) (fun _ _ pd => pd) (test_2d 1 0) (test_2d 0 1)
          test_A2).error ≠ none
    ∧ (ReLu false (fun _ b => b) (fun _ b => b) (Tensor.new [1, 2] DEV_CPU)
          (Tensor.new [1, 2] DEV_GPU)).error ≠ none :=
  have h := activation_mismatch_rejected false (fun _ b => b) (fun _ b => b)
    (fun _ _ pd => pd) (fun _ _ pd => pd) (fun _ _ pd => (pd, [Event.write Buf.PD]))
    (fun _ _ pd => (pd, []))
    (Tensor.new [1, 2] DEV_CPU) (Tensor.new [1, 2] DEV_GPU) (test_2d 1 0) (test_2d 0 1) test_A2
    (Or.inl (by decide))
    (Or.inr (Or.inr (Or.inr (Or.inr (Or.inr (by decide))))))
  ⟨by decide, by decide, h.2.2.2.1, h.2.2.2.2.1, h.2.2.1.1, h.1.1⟩

/-- C17. With operands on one device and of one shape, `Softmax` and
`D_Softmax` raise an error exactly when the first operand's number of
dimensions is not 2, whereas `ReLu` raises no error whatever the number of
dimensions. -/
theorem activation_ndim_rule (cGPU : Bool)
    (k2 g2 : Tensor → Tensor → Tensor)
    (kb gb : Tensor → Tensor → Tensor → Tensor × List Event)
    (A B D I PD : Tensor)
    (hdevAB : A.device = B.device) (hndAB : A.ndim = B.ndim) (hshAB : A.shape = B.shape)
    (hdevDI : D.device = I.device) (hndDI : D.ndim = I.ndim) (hshDI : D.shape = I.shape)
    (hdevDP : D.device = PD.device) (hndDP : D.ndim = PD.ndim) (hshDP : D.shape = PD.shape) :
    ((Softmax cGPU k2 g2 A B).error ≠ none ↔ A.ndim ≠ 2)
    ∧ ((D_Softmax cGPU kb gb D I PD).error ≠ none ↔ D.ndim ≠ 2)
    ∧ (ReLu cGPU k2 g2 A B).error = none := by
  have e1 := eqsize_true_of_eq A B hndAB hshAB
  have e2 := eqsize_true_of_eq D I hndDI hshDI
  have e3 := eqsize_true_of_eq D PD hndDP hshDP
  refine ⟨?_, ?_, ?_⟩
  · unfold Softmax
    rw [if_neg (fun h => h hdevAB), if_neg (by simp [e1])]
    by_cases hn : A.ndim = 2
    · rw [if_neg (fun h => h hn)]
      split_ifs <;> simp [hn]
    · rw [if_pos hn]; simp [hn]
  · unfold D_Softmax
    rw [if_neg (by rintro (h | h); exact h hdevDI; exact h hdevDP), if_neg (by simp [e2, e3])]
    by_cases hn : D.ndim = 2
    · rw [if_neg (fun h => h hn)]
      split_ifs <;> simp [hn]
    · rw [if_pos hn]; simp [hn]
  · unfold ReLu
    rw [if_neg (fun h => h hdevAB), if_neg (by simp [e1])]
    split_ifs <;> rfl

/-- Witness for C17: the 3-D tensor `[4,2,3]` of eddl_test.cpp as every operand:
`Softmax` and `D_Softmax` raise an error, `ReLu` does not. -/
theorem activation_ndim_rule_witness :
    (test_A2.device = test_B2.device ∧ test_A2.ndim = test_B2.ndim
      ∧ test_A2.shape = test_B2.shape ∧ test_A2.ndim ≠ 2)
    ∧ (Softmax false (fun _ b => b) (fun _ b => b) test_A2 test_B2).error ≠ none
    ∧ (D_Softmax false (fun _ _ pd => (pd, [Event.write Buf.PD])) (fun _ _ pd => (pd, []))
          test_A2 test_B2 test_C2).error ≠ none
    ∧ (ReLu false (fun _ b => b) (fun _ b => b) test_A2 test_B2).error = none :=
  have h := activation_ndim_rule false (fun _ b => b) (fun _ b => b)
    (fun _ _ pd => (pd, [Event.write Buf.PD]))
    (fun _ _ pd => (pd, [])) test_A2 test_B2 test_A2 test_B2 test_C2
    (by decide) (by decide) (by decide) (by decide) (by decide) (by decide)
    (by decide) (by decide) (by decide)
  ⟨⟨by decide, by decide, by decide, by decide⟩, h.1.mpr (by decide), h.2.1.mpr (by decide),
    h.2.2⟩

theorem activation_siblings_lock_discipline (cGPU : Bool)
    (k2 g2 : Tensor → Tensor → Tensor) (k3 g3 : Tensor → Tensor → Tensor → Tensor)
    (A B D I PD : Tensor) :
    ((ReLu cGPU k2 g2 A B).error = none →
        Spec.lockDiscipline .B (ReLu cGPU k2 g2 A B).trace = true)
    ∧ ((Softmax cGPU k2 g2 A B).error = none →
        Spec.lockDiscipline .B (Softmax cGPU k2 g2 A B).trace = true)
    ∧ ((D_ReLu cGPU k3 g3 D I PD).error = none →
        Spec.lockDiscipline .PD (D_ReLu cGPU k3 g3 D I PD).trace = true) := by
  refine ⟨?_, ?_, ?_⟩
  · unfold ReLu
    split_ifs <;> simp [Spec.lockDiscipline, Spec.writesUnderLock, Spec.heldAfter]
  · unfold Softmax
    split_ifs <;> simp [Spec.lockDiscipline, Spec.writesUnderLock, Spec.heldAfter]
  · unfold D_ReLu
    split_ifs <;> simp [Spec.lockDiscipline, Spec.writesUnderLock, Spec.heldAfter]

theorem prod_drop_le_of_pos (l : List Int) (h : ∀ d ∈ l, 0 < d) (k : Nat) :
    0 < (l.drop k).prod ∧ (l.drop k).prod ≤ l.prod := by
  have hpos : ∀ m : List Int, (∀ d ∈ m, 0 < d) → 0 < m.prod := by
    intro m hm
    induction m with
    | nil => simp
    | cons x xs ih =>
      rw [List.prod_cons]
      exact mul_pos (hm x (List.mem_cons_self _ _))
        (ih (fun d hd => hm d (List.mem_cons_of_mem _ hd)))
  have hd := hpos (l.drop k) (fun d hd => h d (List.mem_of_mem_drop hd))
  have ht := hpos (l.take k) (fun d hd => h d (List.mem_of_mem_take hd))
  refine ⟨hd, ?_⟩
  conv_rhs => rw [← List.take_append_drop k l, List.prod_append]
  nlinarith

theorem buffer_strides_fit_of_positive (t : Tensor) (hdims : ∀ d ∈ t.shape, 0 < d)
    (hbytes : sizeof_float * t.shape.prod < 2 ^ 63) :
    ∀ i : Nat, i < t.ndim →
      -2 ^ 63 ≤ sizeof_float * (t.shape.drop (i + 1)).prod
      ∧ sizeof_float * (t.shape.drop (i + 1)).prod < 2 ^ 63 := by
  intro i _
  obtain ⟨h1, h2⟩ := prod_drop_le_of_pos t.shape hdims (i + 1)
  unfold sizeof_float at *
  constructor <;> omega

/-- C20, evaluation. Over the optimizer classes of optim.h, `clone()` returns the
null pointer exactly for the objects that are not `SGD`: for `Adam`,
`AdaDelta`, `Adagrad`, `Adamax`, `Nadam` and `RMSProp` the call reaches the base
method, which returns `nullptr`; in particular `Adam()` built with the default
arguments clones to null, while an `SGD` clones to an `SGD` with the same
hyper-parameters. -/
theorem Optimizer_clone_null_unless_SGD (o : Optimizer) (lr mu wd : ℚ) (nesterov : Bool)
    (mT : List Tensor) :
    (Optimizer.clone o = none ↔ o.className ≠ "SGD")
    ∧ Optimizer.clone test_Adam = none
    ∧ Optimizer.clone (.SGD lr mu wd nesterov mT) = some (.SGD lr mu wd nesterov []) := by
  refine ⟨?_, rfl, rfl⟩
  cases o <;> simp [Optimizer.clone, Optimizer.base_clone, SGD.clone, Optimizer.className]

/-! ## `MMeanSquaredError::value` -/

theorem zipWith_eq_map_range (f : ℚ → ℚ → ℚ) (a b : List ℚ) (h : a.length = b.length) :
    List.zipWith f a b
      = (List.range a.length).map (fun i => f (a.getD i 0) (b.getD i 0)) := by
  apply List.ext_getElem
  · simp [h]
  · intro i h1 h2
    have ha : i < a.length := by simpa [h] using h1
    have hb : i < b.length := by omega
    simp [List.getD_eq_getElem?_getD, List.getElem?_eq_getElem, ha, hb]

theorem sumsq_nonneg (a : List ℚ) :
    ∀ b : List ℚ, 0 ≤ (List.zipWith (fun t y => (t - y) ^ 2) a b).sum := by
  induction a with
  | nil => intro b; simp
  | cons x xs ih =>
    intro b
    cases b with
    | nil => simp
    | cons y ys =>
      simp only [List.zipWith_cons_cons, List.sum_cons]
      have := ih ys
      positivity

theorem sumsq_symm (a : List ℚ) :
    ∀ b : List ℚ, (List.zipWith (fun t y => (t - y) ^ 2) a b).sum
      = (List.zipWith (fun t y => (t - y) ^ 2) b a).sum := by
  induction a with
  | nil => intro b; cases b <;> simp
  | cons x xs ih =>
    intro b
    cases b with
    | nil => simp
    | cons y ys =>
      simp only [List.zipWith_cons_cons, List.sum_cons, ih ys]
      ring

theorem sumsq_eq_zero_iff (a : List ℚ) :
    ∀ b : List ℚ, a.length = b.length →
      ((List.zipWith (fun t y => (t - y) ^ 2) a b).sum = 0 ↔ a = b) := by
  induction a with
  | nil =>
    intro b h
    cases b with
    | nil => simp
    | cons y ys => simp at h
  | cons x xs ih =>
    intro b h
    cases b with
    | nil => simp at h
    | cons y ys =>
      have hlen : xs.length = ys.length := by simpa using h
      have hrest := sumsq_nonneg xs ys
      have hsq : 0 ≤ (x - y) ^ 2 := by positivity
      simp only [List.zipWith_cons_cons, List.sum_cons, List.cons.injEq]
      constructor
      · intro hsum
        have h1 : (x - y) ^ 2 = 0 := by linarith
        have h2 : (List.zipWith (fun t y => (t - y) ^ 2) xs ys).sum = 0 := by linarith
        have hx : x - y = 0 := by simpa using h1
        exact ⟨by linarith, (ih ys hlen).mp h2⟩
      · rintro ⟨hxy, hxs⟩
        have h2 := (ih ys hlen).mpr hxs
        rw [h2, hxy]
        simp

theorem list_eq_iff_getD (a b : List ℚ) (h : a.length = b.length) :
    a = b ↔ ∀ i : Nat, i < a.length → a.getD i 0 = b.getD i 0 := by
  constructor
  · intro hab i _; rw [hab]
  · intro hall
    apply List.ext_getElem h
    intro i h1 h2
    have := hall i h1
    simpa [List.getD_eq_getElem?_getD, List.getElem?_eq_getElem, h1, h2] using this

theorem MMeanSquaredError_value_ok (T Y : Tensor)
    (hdev : T.device = Y.device) (heq : Tensor.eqsize T Y = true)
    (hwf : T.ndim = T.shape.length) :
    MMeanSquaredError.value T Y
      = .ok { value := (List.zipWith (fun t y => (t - y) ^ 2) T.ptr Y.ptr).sum,
              T := T, Y := Y } := by
  have hs : T.ndim = Y.ndim ∧ T.shape = Y.shape := by simpa [Tensor.eqsize] using heq
  have hval : (List.map (fun a => a * a)
        (List.zipWith (fun a b => a + -b) T.ptr Y.ptr)).sum
      = (List.zipWith (fun t y => (t - y) ^ 2) T.ptr Y.ptr).sum := by
    congr 1
    generalize T.ptr = a
    generalize Y.ptr = b
    induction a generalizing b with
    | nil => simp
    | cons x xs ih =>
      cases b with
      | nil => simp
      | cons y ys =>
        simp only [List.zipWith_cons_cons, List.map_cons, ih ys, List.cons.injEq, and_true]
        ring
  simp [MMeanSquaredError.value, Tensor.sum, Tensor.el_mult, Tensor.new, Tensor.getShape,
    Tensor.eqsize, Tensor.total_sum, hdev, hwf, ← hs.1, ← hs.2]
  exact hval

/-- C21. `MMeanSquaredError::value(T, Y)`: for tensors on one device, of one
shape and element count, the call succeeds and returns the sum over all
positions `i` of `(T[i] - Y[i])^2`, not divided by the element count, and `T`
and `Y` are as before. -/
theorem MMeanSquaredError_value_sum_of_squares (T Y : Tensor)
    (hdev : T.device = Y.device) (heq : Tensor.eqsize T Y = true)
    (hwf : T.ndim = T.shape.length) (hlen : T.ptr.length = Y.ptr.length) :
    ∃ r : ValueRun, MMeanSquaredError.value T Y = .ok r
      ∧ r.value = ((List.range T.ptr.length).map
          (fun i => (T.ptr.getD i 0 - Y.ptr.getD i 0) ^ 2)).sum
      ∧ r.T = T ∧ r.Y = Y := by
  refine ⟨_, MMeanSquaredError_value_ok T Y hdev heq hwf, ?_, rfl, rfl⟩
  show (List.zipWith (fun t y => (t - y) ^ 2) T.ptr Y.ptr).sum = _
  rw [zipWith_eq_map_range (fun t y => (t - y) ^ 2) T.ptr Y.ptr hlen]

/-- Witness for C21: `T = [1, 2]` and `Y = [3, 5]` of shape `[2]` give the value
`(1-3)^2 + (2-5)^2 = 13`. -/
theorem MMeanSquaredError_value_sum_of_squares_witness :
    ((test_1d 1 2).device = (test_1d 3 5).device
      ∧ Tensor.eqsize (test_1d 1 2) (test_1d 3 5) = true
      ∧ (test_1d 1 2).ndim = (test_1d 1 2).shape.length
      ∧ (test_1d 1 2).ptr.length = (test_1d 3 5).ptr.length)
    ∧ ∃ r : ValueRun, MMeanSquaredError.value (test_1d 1 2) (test_1d 3 5) = .ok r
      ∧ r.value = 13 := by
  refine ⟨⟨by decide, by decide, by decide, by decide⟩, ?_⟩
  obtain ⟨r, hr, hv, _, _⟩ := MMeanSquaredError_value_sum_of_squares (test_1d 1 2)
    (test_1d 3 5) (by decide) (by decide) (by decide) (by decide)
  refine ⟨r, hr, ?_⟩
  rw [hv]
  have hr2 : List.range 2 = [0, 1] := by decide
  simp [test_1d, hr2]
  norm_num

/-- C30. Over exact arithmetic `MMeanSquaredError::value` is symmetric and
definite: for tensors on one device, of one shape and element count, both
`value(T, Y)` and `value(Y, T)` succeed with the same non-negative value, which
is 0 exactly when `T[i] = Y[i]` at every position `i`. -/
theorem MMeanSquaredError_value_symmetric_definite (T Y : Tensor)
    (hdev : T.device = Y.device) (heq : Tensor.eqsize T Y = true)
    (hwfT : T.ndim = T.shape.length) (hlen : T.ptr.length = Y.ptr.length) :
    ∃ r1 r2 : ValueRun, MMeanSquaredError.value T Y = .ok r1
      ∧ MMeanSquaredError.value Y T = .ok r2
      ∧ r1.value = r2.value ∧ 0 ≤ r1.value
      ∧ (r1.value = 0 ↔ ∀ i : Nat, i < T.ptr.length → T.ptr.getD i 0 = Y.ptr.getD i 0) := by
  have hs : T.ndim = Y.ndim ∧ T.shape = Y.shape := by simpa [Tensor.eqsize] using heq
  have heq' : Tensor.eqsize Y T = true := by simp [Tensor.eqsize, hs.1, hs.2]
  have hwfY : Y.ndim = Y.shape.length := by rw [← hs.1, ← hs.2]; exact hwfT
  refine ⟨_, _, MMeanSquaredError_value_ok T Y hdev heq hwfT,
    MMeanSquaredError_value_ok Y T hdev.symm heq' hwfY, ?_, ?_, ?_⟩
  · exact sumsq_symm T.ptr Y.ptr
  · exact sumsq_nonneg T.ptr Y.ptr
  · exact (sumsq_eq_zero_iff T.ptr Y.ptr hlen).trans (list_eq_iff_getD T.ptr Y.ptr hlen)

/-- Witness for C30: `T = [1, 2]` and `Y = [3, 5]` of shape `[2]`. -/
theorem MMeanSquaredError_value_symmetric_definite_witness :
    ((test_1d 1 2).device = (test_1d 3 5).device
      ∧ Tensor.eqsize (test_1d 1 2) (test_1d 3 5) = true
      ∧ (test_1d 1 2).ndim = (test_1d 1 2).shape.length
      ∧ (test_1d 1 2).ptr.length = (test_1d 3 5).ptr.length)
    ∧ ∃ r1 r2 : ValueRun, MMeanSquaredError.value (test_1d 1 2) (test_1d 3 5) = .ok r1
      ∧ MMeanSquaredError.value (test_1d 3 5) (test_1d 1 2) = .ok r2
      ∧ r1.value = r2.value ∧ 0 ≤ r1.value := by
  refine ⟨⟨by decide, by decide, by decide, by decide⟩, ?_⟩
  obtain ⟨r1, r2, h1, h2, h3, h4, _⟩ := MMeanSquaredError_value_symmetric_definite
    (test_1d 1 2) (test_1d 3 5) (by decide) (by decide) (by decide) (by decide)
  exact ⟨r1, r2, h1, h2, h3, h4⟩

/-! ## `LDice::value` and `LDice::delta` -/

theorem Tensor_sum_ok (scA scB : ℚ) (A B C : Tensor)
    (hdev1 : A.device = B.device) (hdev2 : A.device = C.device)
    (heq1 : Tensor.eqsize A B = true) (heq2 : Tensor.eqsize A C = true) :
    Tensor.sum scA A scB B C 0
      = .ok { C with ptr := List.zipWith (fun a b => scA * a + scB * b) A.ptr B.ptr } := by
  unfold Tensor.sum
  rw [if_neg (by rintro (h | h); exact h hdev1; exact h hdev2),
    if_neg (by simp [heq1, heq2]), if_neg (by decide)]

theorem Tensor_el_mult_ok (A B C : Tensor)
    (hdev1 : A.device = B.device) (hdev2 : A.device = C.device)
    (heq1 : Tensor.eqsize A B = true) (heq2 : Tensor.eqsize A C = true) :
    Tensor.el_mult A B C 0
      = .ok { C with ptr := List.zipWith (fun a b => a * b) A.ptr B.ptr } := by
  unfold Tensor.el_mult
  rw [if_neg (by rintro (h | h); exact h hdev1; exact h hdev2),
    if_neg (by simp [heq1, heq2]), if_neg (by decide)]

theorem Tensor_el_div_ok (A B C : Tensor)
    (hdev1 : A.device = B.device) (hdev2 : A.device = C.device)
    (heq1 : Tensor.eqsize A B = true) (heq2 : Tensor.eqsize A C = true) :
    Tensor.el_div A B C 0
      = .ok { C with ptr := List.zipWith (fun a b => a / b) A.ptr B.ptr } := by
  unfold Tensor.el_div
  rw [if_neg (by rintro (h | h); exact h hdev1; exact h hdev2),
    if_neg (by simp [heq1, heq2]), if_neg (by decide)]

theorem LDice_delta_ok (T Y D : Tensor)
    (hdevY : T.device = Y.device) (hdevD : T.device = D.device)
    (heqY : Tensor.eqsize T Y = true) (heqD : Tensor.eqsize T D = true)
    (hwf : T.ndim = T.shape.length) (hsize : T.ptr.length = T.shape.prod.toNat)
    (hlenY : Y.ptr.length = T.ptr.length) :
    LDice.delta T Y D
      = .ok { T := T, Y := Y,
              D := { D with ptr := (List.zipWith
                (fun t y => -2 * ((t ^ 2 + t + 1) / (t + y + 1))) T.ptr Y.ptr) } } := by
  have hsY : T.ndim = Y.ndim ∧ T.shape = Y.shape := by simpa [Tensor.eqsize] using heqY
  have hsD : T.ndim = D.ndim ∧ T.shape = D.shape := by simpa [Tensor.eqsize] using heqD
  simp [LDice.delta, Tensor.add, Tensor.sum, Tensor.el_mult, Tensor.el_div, Tensor.new,
    Tensor.getShape, Tensor.eqsize, Tensor.fill_, Tensor.mult_, hwf,
    ← hsY.1, ← hsY.2, ← hsD.1, ← hsD.2, ← hdevY, ← hdevD]
  rw [← hsize]
  apply List.ext_getElem
  · simp [hlenY]
  · intro i hi1 hi2
    simp
    ring

/-- C22, evaluation at the failing input. For `T = Y = [1, 1]` (shape `[2]`)
`LDice::value` returns `1 - ((2*1*1 + 1)/3 + (2*1*1 + 1)/3) = -1`, whereas one
minus the sum of the Dice terms `2 * (T[i]*Y[i] + 1) / (T[i] + Y[i] + 1)` is
`1 - (4/3 + 4/3) = -5/3`. -/
theorem LDice_value_not_dice_term :
    LDice.value (test_1d 1 1) (test_1d 1 1) = -1
    ∧ Spec.diceValue (test_1d 1 1).ptr (test_1d 1 1).ptr = -5 / 3
    ∧ LDice.value (test_1d 1 1) (test_1d 1 1)
        ≠ Spec.diceValue (test_1d 1 1).ptr (test_1d 1 1).ptr := by
  have hr : List.range 2 = [0, 1] := by decide
  have h1 : LDice.value (test_1d 1 1) (test_1d 1 1) = -1 := by
    simp [LDice.value, test_1d, Tensor.new, Tensor.getShape, Tensor.total_sum, hr]
    norm_num
  have h2 : Spec.diceValue (test_1d 1 1).ptr (test_1d 1 1).ptr = -5 / 3 := by
    simp [Spec.diceValue, test_1d]
    norm_num
  refine ⟨h1, h2, ?_⟩
  rw [h1, h2]
  norm_num

/-- C23, counterexample: for `T = Y = [1, 1]` (shape `[2]`) and a prior
`D = [5, 7]`, `LDice::delta` stores `[-2, -2]` in `D`, not the value
`2 * (1 + 1 + 1) / (1 + 1 + 1) = 2` of the stated derivative. -/
theorem LDice_delta_sign_counterexample :
    LDice.delta (test_1d 1 1) (test_1d 1 1) (test_1d 5 7)
      = .ok { T := test_1d 1 1, Y := test_1d 1 1, D := test_1d (-2) (-2) }
    ∧ (test_1d (-2) (-2)).ptr
        ≠ List.zipWith (fun t y => 2 * ((t ^ 2 + t + 1) / (t + y + 1)))
            (test_1d 1 1).ptr (test_1d 1 1).ptr := by
  constructor
  · rw [LDice_delta_ok (test_1d 1 1) (test_1d 1 1) (test_1d 5 7) (by decide) (by decide)
      (by decide) (by decide) (by decide) (by decide) (by decide)]
    simp [test_1d]
    norm_num
  · simp [test_1d]
    norm_num

/-- C23, amended. `LDice::delta(T, Y, D)`: for tensors on one device, of one
shape and element count, the call succeeds and stores in `D`, at every
position `i`, the value `-2 * (T[i]^2 + T[i] + 1) / (T[i] + Y[i] + 1)`, whatever
`D` held before, and `T` and `Y` are as before (denominators assumed non-zero). -/
theorem LDice_delta_stores_negated_derivative (T Y D : Tensor)
    (hdevY : T.device = Y.device) (hdevD : T.device = D.device)
    (heqY : Tensor.eqsize T Y = true) (heqD : Tensor.eqsize T D = true)
    (hwf : T.ndim = T.shape.length) (hsize : T.ptr.length = T.shape.prod.toNat)
    (hlenY : Y.ptr.length = T.ptr.length)
    (_hden : ∀ i : Nat, i < T.ptr.length → T.ptr.getD i 0 + Y.ptr.getD i 0 + 1 ≠ 0) :
    ∃ r : DeltaRun, LDice.delta T Y D = .ok r
      ∧ r.T = T ∧ r.Y = Y
      ∧ r.D.shape = D.shape ∧ r.D.device = D.device
      ∧ r.D.ptr.length = T.ptr.length
      ∧ ∀ i : Nat, i < T.ptr.length →
          r.D.ptr.getD i 0
            = -2 * ((T.ptr.getD i 0 ^ 2 + T.ptr.getD i 0 + 1)
                    / (T.ptr.getD i 0 + Y.ptr.getD i 0 + 1)) := by
  refine ⟨_, LDice_delta_ok T Y D hdevY hdevD heqY heqD hwf hsize hlenY,
    rfl, rfl, rfl, rfl, ?_, ?_⟩
  · simp [hlenY]
  · intro i hi
    have hiY : i < Y.ptr.length := by omega
    simp [List.getD_eq_getElem?_getD, List.getElem?_eq_getElem, hi, hiY]

/-- Witness for C23 (amended): `T = [1, 1]`, `Y = [1, 1]`, prior `D = [5, 7]`. -/
theorem LDice_delta_stores_negated_derivative_witness :
    ((test_1d 1 1).device = (test_1d 5 7).device
      ∧ Tensor.eqsize (test_1d 1 1) (test_1d 5 7) = true
      ∧ (test_1d 1 1).ndim = (test_1d 1 1).shape.length
      ∧ (test_1d 1 1).ptr.length = (test_1d 1 1).shape.prod.toNat)
    ∧ ∃ r : DeltaRun, LDice.delta (test_1d 1 1) (test_1d 1 1) (test_1d 5 7) = .ok r
      ∧ r.T = test_1d 1 1 ∧ r.Y = test_1d 1 1 ∧ r.D.ptr.length = 2 := by
  refine ⟨⟨by decide, by decide, by decide, by decide⟩, ?_⟩
  obtain ⟨r, hr, hT, hY, _, _, hlen, _⟩ := LDice_delta_stores_negated_derivative
    (test_1d 1 1) (test_1d 1 1) (test_1d 5 7) (by decide) (by decide) (by decide)
    (by decide) (by decide) (by decide) (by decide)
    (by
      intro i hi
      have hi2 : i < 2 := hi
      interval_cases i <;> simp [test_1d] <;> norm_num)
  exact ⟨r, hr, hT, hY, hlen⟩

/-! ## `Tensor::load` -/

/-- C24, counterexample: on a file that opens, `Tensor::load` with the
documented format `npy` dispatches to no loader and raises the error "Format
deprecated in favor of python"; and for `csv`, which is outside the documented
list, the error is that same deprecation error, not "Format not implemented". -/
theorem Tensor_load_npy_refused :
    "npy" ∈ Spec.load_documented_formats
    ∧ Tensor.load (fun _ => "") true "data.npy" "npy"
        = .error { text := "Format deprecated in favor of python: *.\x27npy\x27",
                   origin := "Tensor::load" }
    ∧ "csv" ∉ Spec.load_documented_formats
    ∧ Tensor.load (fun _ => "") true "data.csv" "csv"
        = .error { text := "Format deprecated in favor of python: *.\x27csv\x27",
                   origin := "Tensor::load" } := by
  exact ⟨by decide, rfl, by decide, rfl⟩

theorem load_messages_differ (f : String) :
    ("Format deprecated in favor of python: *.\x27" ++ f ++ "\x27" : String)
      ≠ "Format not implemented: *.\x27" ++ f ++ "\x27" := by
  intro h
  have hlen := congrArg String.length h
  have h1 : ("Format deprecated in favor of python: *.\x27" : String).length = 41 := by decide
  have h2 : ("Format not implemented: *.\x27" : String).length = 27 := by decide
  simp only [String.length_append, h1, h2] at hlen
  omega

/-- C24, amended. On a file that opens, `Tensor::load` dispatches on the format
argument, or on the file name's extension when the argument is empty: it hands
the file to the image loader exactly for the image filetypes, to `loadfs`
exactly for `bin` and `onnx`, raises "Format deprecated in favor of python"
exactly for `npy`, `npz`, `csv`, `tsv` and `txt`, and raises "Format not
implemented" exactly for every other format. -/
theorem Tensor_load_dispatch (get_extension : String → String) (filename format : String) :
    (Tensor.load get_extension true filename format = .ok Loader.load_from_img
        ↔ Spec.load_effective_format get_extension filename format
            ∈ Spec.load_image_formats)
    ∧ (Tensor.load get_extension true filename format = .ok Loader.loadfs
        ↔ Spec.load_effective_format get_extension filename format ∈ ["bin", "onnx"])
    ∧ (Tensor.load get_extension true filename format
          = .error { text := "Format deprecated in favor of python: *.\x27"
                        ++ Spec.load_effective_format get_extension filename format
                        ++ "\x27",
                     origin := "Tensor::load" }
        ↔ Spec.load_effective_format get_extension filename format
            ∈ Spec.load_deprecated_formats)
    ∧ (Tensor.load get_extension true filename format
          = .error { text := "Format not implemented: *.\x27"
                        ++ Spec.load_effective_format get_extension filename format
                        ++ "\x27",
                     origin := "Tensor::load" }
        ↔ Spec.load_effective_format get_extension filename format
            ∉ Spec.load_image_formats ++ ["bin", "onnx"] ++ Spec.load_deprecated_formats) := by
  have hd := load_messages_differ (Spec.load_effective_format get_extension filename format)
  have hload : Tensor.load get_extension true filename format
      = (fun f : String =>
          if f = "jpg" ∨ f = "jpeg" ∨ f = "png" ∨ f = "bmp" ∨ f = "hdr" ∨ f = "psd"
              ∨ f = "tga" ∨ f = "gif" ∨ f = "pic" ∨ f = "pgm" ∨ f = "ppm" then
            (.ok Loader.load_from_img : Except Msg Loader)
          else if f = "bin" ∨ f = "onnx" then .ok Loader.loadfs
          else if f = "npy" ∨ f = "npz" then
            .error { text := "Format deprecated in favor of python: *.\x27" ++ f ++ "\x27",
                     origin := "Tensor::load" }
          else if f = "csv" ∨ f = "tsv" ∨ f = "txt" then
            .error { text := "Format deprecated in favor of python: *.\x27" ++ f ++ "\x27",
                     origin := "Tensor::load" }
          else
            .error { text := "Format not implemented: *.\x27" ++ f ++ "\x27",
                     origin := "Tensor::load" })
        (Spec.load_effective_format get_extension filename format) := rfl
  rw [hload]
  generalize Spec.load_effective_format get_extension filename format = f at hd ⊢
  simp only [Spec.load_image_formats, Spec.load_deprecated_formats, List.mem_cons,
    List.mem_append, List.mem_singleton, List.not_mem_nil, or_false]
  split_ifs with h1 h2 h3 h4
  · simp [h1]
    rcases h1 with rfl | rfl | rfl | rfl | rfl | rfl | rfl | rfl | rfl | rfl | rfl <;> decide
  · simp [h1, h2]
    rcases h2 with rfl | rfl <;> decide
  · simp [h1, h2, hd]
    tauto
  · simp [h1, h2, h3, hd]
    tauto
  · simp [h1, h2, h3, h4, hd, Ne.symm hd]

/-! ## Order of the sub-layer calls of `LRMin` -/

theorem foldl_append_singleton (ls : List Layer) :
    ∀ acc : List Layer, ls.foldl (fun (st : List Layer) sub => st ++ [sub]) acc = acc ++ ls := by
  induction ls with
  | nil => intro acc; simp
  | cons x xs ih => intro acc; simp [ih]

/-- C27. For every list of sub-layers held by an `LRMin` layer, the empty list
included, `forward` calls `forward()` on the sub-layers in list order, each
exactly once, and `backward` calls `backward()` on them in exactly the reverse
of that order, each exactly once; both are total functions of the list. -/
theorem LRMin_backward_reverses_forward (L : LRMin) :
    LRMin.forward (fun sub (calls : List Layer) => calls ++ [sub]) L [] = L.layers
    ∧ LRMin.backward (fun sub (calls : List Layer) => calls ++ [sub]) L [] = L.layers.reverse
    ∧ LRMin.backward (fun sub (calls : List Layer) => calls ++ [sub]) L []
        = (LRMin.forward (fun sub (calls : List Layer) => calls ++ [sub]) L []).reverse
    ∧ (LRMin.backward (fun sub (calls : List Layer) => calls ++ [sub]) L []).Perm L.layers
    ∧ (LRMin.backward (fun sub (calls : List Layer) => calls ++ [sub]) L []).length
        = L.layers.length := by
  have hf : LRMin.forward (fun sub (calls : List Layer) => calls ++ [sub]) L [] = L.layers := by
    simp [LRMin.forward, foldl_append_singleton]
  have hb : LRMin.backward (fun sub (calls : List Layer) => calls ++ [sub]) L []
      = L.layers.reverse := by
    unfold LRMin.backward
    rw [foldl_append_singleton]
    simp
  refine ⟨hf, hb, ?_, ?_, ?_⟩
  · rw [hb, hf]
  · rw [hb]; exact List.reverse_perm L.layers
  · rw [hb]; simp

/-! ## `LExp::backward` and the chain rule -/

/-- C28, evaluation at the failing input. On `test_exp_layer_zero` (own
gradient `d = [0, 0]`, parent output `x = [1, 2]`, prior parent gradient
`P = [10, 20]`) the chain rule gives `P[i] + 0 * exp(x[i]) = P[i]`, whereas
`backward()` leaves `P[i] + expf 0 * x[i]` in the parent's gradient; with the
stand-in `expf_sample`, for which `expf_sample 0 = 1` as for the exponential,
that is `[11, 22]` instead of `[10, 20]`. -/
theorem LExp_backward_not_chain_rule (expf : ℚ → ℚ) :
    Spec.expChainRule expf [10, 20] [0, 0] [1, 2] = [10, 20]
    ∧ LExp.backward expf test_exp_layer_zero
        = .ok { test_exp_layer_zero with
            delta := { test_min_input with ptr := [expf 0, expf 0] }
            parent := [{ test_exp_parent with
              delta := { test_min_input with
                ptr := [10 + expf 0 * 1, 20 + expf 0 * 2] } }] }
    ∧ LExp.backward expf_sample test_exp_layer_zero
        = .ok { test_exp_layer_zero with
            delta := { test_min_input with ptr := [1, 1] }
            parent := [{ test_exp_parent with
              delta := { test_min_input with ptr := [11, 22] } }] }
    ∧ ([11, 22] : List ℚ) ≠ Spec.expChainRule expf_sample [10, 20] [0, 0] [1, 2] := by
  have hspec : ∀ e : ℚ → ℚ, Spec.expChainRule e [10, 20] [0, 0] [1, 2] = [10, 20] := by
    intro e; simp [Spec.expChainRule]
  have hback : ∀ e : ℚ → ℚ, LExp.backward e test_exp_layer_zero
      = .ok { test_exp_layer_zero with
          delta := { test_min_input with ptr := [e 0, e 0] }
          parent := [{ test_exp_parent with
            delta := { test_min_input with ptr := [10 + e 0 * 1, 20 + e 0 * 2] } }] } := by
    intro e
    simp [LExp.backward, test_exp_layer_zero, LExp.new, test_exp_parent, test_min_input,
      Tensor.el_mult, Tensor.set_exp, Tensor.eqsize]
  refine ⟨hspec expf, hback expf, ?_, ?_⟩
  · rw [hback expf_sample]
    simp [expf_sample]
    norm_num
  · rw [hspec expf_sample]
    norm_num

/-! ## numpy exchange: round trip -/

theorem to_int32_of_small (n : Nat) (h : n < 2147483648) : to_int32 (n : Int) = n := by
  unfold to_int32
  omega

theorem map_to_int32_of_small (l : List Nat) (h : ∀ d ∈ l, d < 2147483648) :
    l.map (fun (d : Nat) => to_int32 (d : Int)) = l.map (fun (d : Nat) => (d : Int)) := by
  apply List.map_congr_left
  intro d hd
  exact to_int32_of_small d (h d hd)

theorem prod_map_cast (l : List Nat) :
    (l.map (fun (d : Nat) => (d : Int))).prod = ((l.prod : Nat) : Int) := by
  induction l with
  | nil => rfl
  | cons x xs ih =>
    rw [List.map_cons, List.prod_cons, List.prod_cons, ih]
    push_cast
    rfl

theorem le_prod_of_mem_of_pos (l : List Nat) (h : 0 < l.prod) :
    ∀ d ∈ l, d ≤ l.prod := by
  intro d hd
  exact Nat.le_of_dvd h (List.dvd_prod hd)

theorem prod_map_to_int32_zero (l : List Nat) (h : l.prod = 0) :
    (l.map (fun (d : Nat) => to_int32 (d : Int))).prod = 0 := by
  apply List.prod_eq_zero
  have h0 : (0 : Nat) ∈ l := List.prod_eq_zero_iff.mp h
  exact List.mem_map.mpr ⟨0, h0, rfl⟩

/-- C29. `tensor_getdata` undoes `tensor_from_npy`: for every C-contiguous
float array `a` with fewer than `2^31` elements and the CPU device,
`tensor_from_npy(a, DEV_CPU)` constructs a tensor exactly when `a` has an
element (for an array without elements the constructor fails), the constructed
tensor's size is the product of its shape and it holds the elements of `a`, and
`tensor_getdata` of it succeeds and returns `a`: the same shape and the same
element at every position. -/
theorem tensor_getdata_from_npy (a : NpArray)
    (hwf : a.data.length = a.shape.prod)
    (hcount : a.shape.prod < 2147483648) :
    (a.shape.prod = 0 →
      tensor_from_npy a DEV_CPU
        = .error { text := "AllocationError", origin := "Tensor::Tensor" })
    ∧ (0 < a.shape.prod →
        ∃ T : Tensor, tensor_from_npy a DEV_CPU = .ok T
          ∧ T.size = T.shape.prod ∧ T.ptr = a.data
          ∧ tensor_getdata T = .ok a) := by
  refine ⟨?_, ?_⟩
  · intro h0
    unfold tensor_from_npy Tensor.create
    simp only [prod_map_to_int32_zero a.shape h0, if_true]
  · intro hpos
    have hdims : ∀ d ∈ a.shape, d < 2147483648 := fun d hd =>
      lt_of_le_of_lt (le_prod_of_mem_of_pos a.shape hpos d hd) hcount
    have hshape : a.shape.map (fun (d : Nat) => to_int32 (d : Int))
        = a.shape.map (fun (d : Nat) => (d : Int)) :=
      map_to_int32_of_small a.shape hdims
    have hprod := prod_map_cast a.shape
    have hsize : to_int32 ((a.shape.map (fun (d : Nat) => (d : Int))).prod)
        = (a.shape.prod : Int) := by
      rw [hprod]; exact to_int32_of_small _ hcount
    have hn : ((a.shape.prod : Nat) : Int).toNat = a.data.length := by
      rw [Int.toNat_ofNat, hwf]
    have hne : ¬ (a.shape.map (fun (d : Nat) => (d : Int))).prod = 0 := by
      rw [hprod]
      omega
    have hT : tensor_from_npy a DEV_CPU
        = .ok { device := DEV_CPU, ndim := a.shape.length, size := (a.shape.prod : Int),
                shape := a.shape.map (fun (d : Nat) => (d : Int)), ptr := a.data } := by
      unfold tensor_from_npy Tensor.create
      simp only [hshape, if_neg hne, hsize, hn, List.take_length]
      simp only [Tensor.new, hprod, hn, List.length_map]
      rw [List.drop_of_length_le (by simp), List.append_nil]
    refine ⟨_, hT, hprod.symm, rfl, ?_⟩
    have hnn : (a.shape.map (fun (d : Nat) => (d : Int))).any (fun d => decide (d < 0))
        = false := by
      rw [List.any_eq_false]
      intro x hx
      obtain ⟨d, _, rfl⟩ := List.mem_map.mp hx
      simp
    have hback : (a.shape.map (fun (d : Nat) => (d : Int))).map Int.toNat = a.shape := by
      rw [List.map_map]
      conv_rhs => rw [← List.map_id a.shape]
      apply List.map_congr_left
      intro d _
      rfl
    have hneg : ¬ ((a.shape.prod : Nat) : Int) < 0 := by omega
    unfold tensor_getdata
    simp only [hneg, if_false, hnn, hback, hn, List.take_length, Bool.false_eq_true]
    rw [← hwf, List.take_length, Nat.sub_self]
    simp

/-- Witness for C29: the array `[[1, 2, 3], [4, 5, 6]]` is turned into a tensor
of size 6 holding its elements, and `tensor_getdata` returns the array. -/
theorem tensor_getdata_from_npy_witness :
    (test_np_2x3.data.length = test_np_2x3.shape.prod
      ∧ test_np_2x3.shape.prod < 2147483648
      ∧ 0 < test_np_2x3.shape.prod)
    ∧ ∃ T : Tensor, tensor_from_npy test_np_2x3 DEV_CPU = .ok T
        ∧ T.size = T.shape.prod ∧ T.ptr = test_np_2x3.data
        ∧ tensor_getdata T = .ok test_np_2x3 :=
  ⟨⟨by decide, by decide, by decide⟩,
    (tensor_getdata_from_npy test_np_2x3 (by decide) (by decide)).2 (by decide)⟩

/-! ## Axis reduction: groups and first extreme -/

theorem mem_group (shape : List Nat) (axis : List Int) (j i : Nat) :
    i ∈ Spec.group shape axis j ↔ i < shape.prod ∧ Spec.outIndex shape axis i = j := by
  simp [Spec.group]

theorem group_pairwise (shape : List Nat) (axis : List Int) (j : Nat) :
    (Spec.group shape axis j).Pairwise (fun a b => a < b) := by
  unfold Spec.group
  exact List.Pairwise.filter _ (List.pairwise_lt_range _)

theorem firstArgmax_scan (val : Nat → ℚ) (i : Nat) (rest : List Nat) :
    (i :: rest).Pairwise (fun a b => a < b) →
      rest.foldl (fun best k => if val best < val k then k else best) i ∈ i :: rest
      ∧ (∀ k ∈ i :: rest,
          val k ≤ val (rest.foldl (fun best k => if val best < val k then k else best) i))
      ∧ (∀ k ∈ i :: rest,
          k < rest.foldl (fun best k => if val best < val k then k else best) i →
          val k < val (rest.foldl (fun best k => if val best < val k then k else best) i)) := by
  induction rest using List.reverseRecOn with
  | nil =>
    intro _
    refine ⟨by simp, ?_, ?_⟩
    · intro k hk
      have : k = i := by simpa using hk
      subst this; exact le_refl _
    · intro k hk hlt
      have : k = i := by simpa using hk
      subst this
      exact absurd hlt (by simp)
  | append_singleton xs x ih =>
    intro hp
    have hp' : (i :: xs).Pairwise (fun a b => a < b) := by
      have : (i :: xs ++ [x]).Pairwise (fun a b => a < b) := by simpa using hp
      exact (List.pairwise_append.mp this).1
    have hlast : ∀ k ∈ i :: xs, k < x := by
      have : (i :: xs ++ [x]).Pairwise (fun a b => a < b) := by simpa using hp
      intro k hk
      exact (List.pairwise_append.mp this).2.2 k hk x (by simp)
    obtain ⟨hmem, hmax, hfirst⟩ := ih hp'
    rw [List.foldl_append]
    simp only [List.foldl_cons, List.foldl_nil]
    by_cases hlt : val (xs.foldl (fun best k => if val best < val k then k else best) i) < val x
    · rw [if_pos hlt]
      refine ⟨by simp, ?_, ?_⟩
      · intro k hk
        have hk' : k ∈ i :: xs ∨ k = x := by simpa [or_assoc] using hk
        rcases hk' with hk' | rfl
        · exact le_of_lt (lt_of_le_of_lt (hmax k hk') hlt)
        · exact le_refl _
      · intro k hk hkx
        have hk' : k ∈ i :: xs ∨ k = x := by simpa [or_assoc] using hk
        rcases hk' with hk' | rfl
        · exact lt_of_le_of_lt (hmax k hk') hlt
        · exact absurd hkx (lt_irrefl _)
    · rw [if_neg hlt]
      refine ⟨?_, ?_, ?_⟩
      · have : xs.foldl (fun best k => if val best < val k then k else best) i ∈ i :: xs := hmem
        simp only [List.mem_cons, List.mem_append] at this ⊢
        tauto
      · intro k hk
        have hk' : k ∈ i :: xs ∨ k = x := by simpa [or_assoc] using hk
        rcases hk' with hk' | rfl
        · exact hmax k hk'
        · exact not_lt.mp hlt
      · intro k hk hko
        have hk' : k ∈ i :: xs ∨ k = x := by simpa [or_assoc] using hk
        rcases hk' with hk' | rfl
        · exact hfirst k hk' hko
        · exact absurd (hlast _ hmem) (not_lt.mpr (le_of_lt hko))

theorem firstArgmax_spec (val : Nat → ℚ) (g : List Nat) (hne : g ≠ [])
    (hp : g.Pairwise (fun a b => a < b)) :
    Spec.firstArgmax val g ∈ g
    ∧ (∀ k ∈ g, val k ≤ val (Spec.firstArgmax val g))
    ∧ (∀ k ∈ g, k < Spec.firstArgmax val g → val k < val (Spec.firstArgmax val g)) := by
  cases g with
  | nil => exact absurd rfl hne
  | cons i rest => exact firstArgmax_scan val i rest hp

theorem firstArgmin_spec (val : Nat → ℚ) (g : List Nat) (hne : g ≠ [])
    (hp : g.Pairwise (fun a b => a < b)) :
    Spec.firstArgmin val g ∈ g
    ∧ (∀ k ∈ g, val (Spec.firstArgmin val g) ≤ val k)
    ∧ (∀ k ∈ g, k < Spec.firstArgmin val g → val (Spec.firstArgmin val g) < val k) := by
  obtain ⟨h1, h2, h3⟩ := firstArgmax_spec (fun i => - val i) g hne hp
  refine ⟨h1, ?_, ?_⟩
  · intro k hk
    have := h2 k hk
    unfold Spec.firstArgmin
    linarith
  · intro k hk hlt
    have := h3 k hk hlt
    unfold Spec.firstArgmin
    linarith

theorem axis_any_out_of_range_false (axis : List Int) (n : Nat)
    (hrange : ∀ a ∈ axis, 0 ≤ a ∧ a < (n : Int)) :
    axis.any (fun a => decide (a < 0 ∨ (n : Int) ≤ a)) = false := by
  rw [List.any_eq_false]
  intro a ha
  have := hrange a ha
  simp only [decide_eq_true_eq]
  omega

theorem Tensor_reduce_ok (A B : Tensor) (axis : List Int) (mode : String) (keepdims : Bool)
    (C : Option Tensor) (incB : Int)
    (hnodup : axis.Nodup) (hrange : ∀ a ∈ axis, 0 ≤ a ∧ a < (A.ndim : Int))
    (hdev : A.device = B.device)
    (hshape : B.shape = (if keepdims then Spec.unitAxes axis A.shape
                          else Spec.dropAxes axis A.shape))
    (hmode : mode ∈ ["sum", "mean", "max", "min"]) :
    Tensor.reduce A B axis mode keepdims C incB
      = .ok { B := { B with ptr := ((List.range (Spec.dropAt axis 0 (A.shape.map Int.toNat)).prod).map
                      (fun j => (if incB = 1 then B.ptr.getD j 0 else 0)
                        + Spec.reduceValue mode (fun i => A.ptr.getD i 0)
                            (Spec.group (A.shape.map Int.toNat) axis j))) }
              C := (if mode = "max" ∨ mode = "min" then
                     C.map (fun c => { c with ptr :=
                       ((List.range (Spec.dropAt axis 0 (A.shape.map Int.toNat)).prod).map
                         (fun j => ((Spec.origin mode (fun i => A.ptr.getD i 0)
                            (Spec.group (A.shape.map Int.toNat) axis j) : Nat) : ℚ))) })
                   else C) } := by
  unfold Tensor.reduce
  rw [if_neg (fun h => h hnodup),
    if_neg (by rw [axis_any_out_of_range_false axis A.ndim hrange]; exact Bool.false_ne_true),
    if_neg (fun h => h hdev), if_neg (fun h => h hshape), if_neg (fun h => h hmode)]

theorem Tensor_delta_reduce_ok (A B : Tensor) (axis : List Int) (mode : String)
    (keepdims : Bool) (C : Tensor) (incB : Int)
    (hnodup : axis.Nodup) (hrange : ∀ a ∈ axis, 0 ≤ a ∧ a < (B.ndim : Int))
    (hdev : A.device = B.device)
    (hshape : A.shape = (if keepdims then Spec.unitAxes axis B.shape
                          else Spec.dropAxes axis B.shape))
    (hmode : mode ∈ ["sum", "mean", "max", "min"]) :
    Tensor.delta_reduce A B axis mode keepdims (some C) incB
      = .ok { B with ptr := ((List.range (B.shape.map Int.toNat).prod).map (fun i =>
          (if incB = 1 then B.ptr.getD i 0 else 0)
            + (if mode = "sum" then
                A.ptr.getD (Spec.outIndex (B.shape.map Int.toNat) axis i) 0
              else if mode = "mean" then
                A.ptr.getD (Spec.outIndex (B.shape.map Int.toNat) axis i) 0
                  / ((Spec.group (B.shape.map Int.toNat) axis
                        (Spec.outIndex (B.shape.map Int.toNat) axis i)).length : ℚ)
              else if C.ptr.getD (Spec.outIndex (B.shape.map Int.toNat) axis i) 0 = (i : ℚ)
                then A.ptr.getD (Spec.outIndex (B.shape.map Int.toNat) axis i) 0
              else 0))) } := by
  unfold Tensor.delta_reduce
  rw [if_neg (fun h => h hnodup),
    if_neg (by rw [axis_any_out_of_range_false axis B.ndim hrange]; exact Bool.false_ne_true),
    if_neg (fun h => h hdev), if_neg (fun h => h hshape), if_neg (fun h => h hmode),
    if_neg (by simp)]
  rfl

theorem ravel_loop_lt (shape idx : List Nat) (h : List.Forall₂ (fun d c => c < d) shape idx) :
    ∀ acc P : Nat, acc < P →
      (List.zip shape idx).foldl (fun a p => a * p.1 + p.2) acc < P * shape.prod := by
  induction h with
  | nil => intro acc P hacc; simpa using hacc
  | @cons d c ds cs hcd _ ih =>
    intro acc P hacc
    simp only [List.zip_cons_cons, List.foldl_cons, List.prod_cons]
    have hstep : acc * d + c < P * d := by
      have h1 : acc + 1 ≤ P := hacc
      have h2 : (acc + 1) * d ≤ P * d := Nat.mul_le_mul_right d h1
      have h3 : (acc + 1) * d = acc * d + d := by ring
      omega
    have := ih (acc * d + c) (P * d) hstep
    rw [Nat.mul_assoc] at this
    exact this

theorem ravel_lt (shape idx : List Nat) (h : List.Forall₂ (fun d c => c < d) shape idx) :
    Spec.ravel shape idx < shape.prod := by
  have := ravel_loop_lt shape idx h 0 1 (by omega)
  simpa [Spec.ravel] using this

theorem unravelRev_forall₂ (shape : List Nat) (hpos : ∀ d ∈ shape, 0 < d) :
    ∀ i : Nat, List.Forall₂ (fun d c => c < d) shape (Spec.unravelRev shape i) := by
  induction shape with
  | nil => intro i; exact List.Forall₂.nil
  | cons d ds ih =>
    intro i
    simp only [Spec.unravelRev]
    exact List.Forall₂.cons (Nat.mod_lt _ (hpos d (List.mem_cons_self _ _)))
      (ih (fun x hx => hpos x (List.mem_cons_of_mem _ hx)) (i / d))

theorem unravel_forall₂ (shape : List Nat) (hpos : ∀ d ∈ shape, 0 < d) (i : Nat) :
    List.Forall₂ (fun d c => c < d) shape (Spec.unravel shape i) := by
  have h := unravelRev_forall₂ shape.reverse (fun d hd => hpos d (List.mem_reverse.mp hd)) i
  have h2 := List.rel_reverse h
  simpa [Spec.unravel] using h2

theorem dropAt_forall₂ (axis : List Int) (shape idx : List Nat)
    (h : List.Forall₂ (fun d c => c < d) shape idx) :
    ∀ k : Nat, List.Forall₂ (fun d c => c < d) (Spec.dropAt axis k shape)
      (Spec.dropAt axis k idx) := by
  induction h with
  | nil => intro k; exact List.Forall₂.nil
  | cons hcd _ ih =>
    intro k
    by_cases hk : (k : Int) ∈ axis
    · simp only [Spec.dropAt, hk, if_true]
      exact ih (k + 1)
    · simp only [Spec.dropAt, hk, if_false]
      exact List.Forall₂.cons hcd (ih (k + 1))

theorem outIndex_lt (shape : List Nat) (axis : List Int) (i : Nat) (hi : i < shape.prod) :
    Spec.outIndex shape axis i < (Spec.dropAt axis 0 shape).prod := by
  have hpos : ∀ d ∈ shape, 0 < d := by
    intro d hd
    rcases Nat.eq_zero_or_pos d with h0 | h0
    · exfalso
      have : shape.prod = 0 := List.prod_eq_zero (h0 ▸ hd)
      omega
    · exact h0
  exact ravel_lt _ _ (dropAt_forall₂ axis shape _ (unravel_forall₂ shape hpos i) 0)

/-- C26. `Tensor::reduce` with mode "mean" and keepdims=false: for every source
tensor, every valid axis set and an output buffer of the reduced shape on the
same device, the call succeeds and writes to each output position `j` the
arithmetic mean of the source elements of its group, the group being exactly
the source indices that map to `j`; every source index lies in the group of
exactly one output position. -/
theorem Tensor_reduce_mean (A B : Tensor) (axis : List Int)
    (hnodup : axis.Nodup) (hrange : ∀ a ∈ axis, 0 ≤ a ∧ a < (A.ndim : Int))
    (hdev : A.device = B.device) (hshape : B.shape = Spec.dropAxes axis A.shape) :
    ∃ run : ReduceRun, Tensor.reduce A B axis "mean" false none 0 = .ok run
      ∧ run.B.shape = Spec.dropAxes axis A.shape
      ∧ run.B.ptr.length = (Spec.dropAt axis 0 (A.shape.map Int.toNat)).prod
      ∧ (∀ j : Nat, j < (Spec.dropAt axis 0 (A.shape.map Int.toNat)).prod →
          run.B.ptr.getD j 0
            = ((Spec.group (A.shape.map Int.toNat) axis j).map
                (fun i => A.ptr.getD i 0)).sum
              / ((Spec.group (A.shape.map Int.toNat) axis j).length : ℚ))
      ∧ (∀ j i : Nat, i ∈ Spec.group (A.shape.map Int.toNat) axis j
          ↔ i < (A.shape.map Int.toNat).prod
            ∧ Spec.outIndex (A.shape.map Int.toNat) axis i = j)
      ∧ (∀ i : Nat, i < (A.shape.map Int.toNat).prod →
          Spec.outIndex (A.shape.map Int.toNat) axis i
            < (Spec.dropAt axis 0 (A.shape.map Int.toNat)).prod) := by
  have hok := Tensor_reduce_ok A B axis "mean" false none 0 hnodup hrange hdev
    (by simpa using hshape) (by decide)
  refine ⟨_, hok, hshape, by simp, ?_, ?_, ?_⟩
  · intro j hj
    have hv : ∀ (val : Nat → ℚ) (g : List Nat), Spec.reduceValue "mean" val g
        = (g.map val).sum / (g.length : ℚ) := fun _ _ => rfl
    simp [List.getD_eq_getElem?_getD, hj, hv]
  · intro j i
    exact mem_group _ _ _ _
  · intro i hi
    exact outIndex_lt _ _ _ hi

/-- Witness for C26: the `[4,2,3,7]` tensor of eddl_test.cpp reduced over the axes
`{1,3}` into a buffer of shape `[4,3]`: 12 output positions, and the groups of
the first and of the last output position have 14 elements each. -/
theorem Tensor_reduce_mean_witness :
    (test_axis.Nodup ∧ (∀ a ∈ test_axis, 0 ≤ a ∧ a < (test_A.ndim : Int))
      ∧ test_A.device = (Tensor.new [4, 3] DEV_CPU).device
      ∧ (Tensor.new [4, 3] DEV_CPU).shape = Spec.dropAxes test_axis test_A.shape)
    ∧ (∃ run : ReduceRun,
        Tensor.reduce test_A (Tensor.new [4, 3] DEV_CPU) test_axis "mean" false none 0 = .ok run
        ∧ run.B.shape = [4, 3] ∧ run.B.ptr.length = 12)
    ∧ (Spec.group [4, 2, 3, 7] test_axis 0).length = 14
    ∧ (Spec.group [4, 2, 3, 7] test_axis 11).length = 14 := by
  refine ⟨⟨by decide, by decide, by decide, by decide⟩, ?_, by decide, by decide⟩
  obtain ⟨run, hrun, hs, hl, _⟩ := Tensor_reduce_mean test_A (Tensor.new [4, 3] DEV_CPU)
    test_axis (by decide) (by decide) (by decide) (by decide)
  exact ⟨run, hrun, hs.trans (by decide), hl.trans (by decide)⟩

theorem getD_map_range (f : Nat → ℚ) (n k : Nat) (h : k < n) :
    ((List.range n).map f).getD k 0 = f k := by
  rw [List.getD_eq_getElem?_getD, List.getElem?_map, List.getElem?_range h]
  rfl

theorem delta_reduce_extreme_entry (G Bg : Tensor) (axis : List Int) (mode : String)
    (hmode : mode = "max" ∨ mode = "min") (n : Nat) (orig : Nat → Nat) (k j : Nat)
    (hk : k < (Bg.shape.map Int.toNat).prod)
    (hkj : Spec.outIndex (Bg.shape.map Int.toNat) axis k = j) (hj : j < n) :
    ((List.range (Bg.shape.map Int.toNat).prod).map (fun i =>
        (if (0 : Int) = 1 then Bg.ptr.getD i 0 else 0)
          + (if mode = "sum" then
              G.ptr.getD (Spec.outIndex (Bg.shape.map Int.toNat) axis i) 0
            else if mode = "mean" then
              G.ptr.getD (Spec.outIndex (Bg.shape.map Int.toNat) axis i) 0
                / ((Spec.group (Bg.shape.map Int.toNat) axis
                      (Spec.outIndex (Bg.shape.map Int.toNat) axis i)).length : ℚ)
            else if ((List.range n).map (fun j => ((orig j : Nat) : ℚ))).getD
                  (Spec.outIndex (Bg.shape.map Int.toNat) axis i) 0 = (i : ℚ)
              then G.ptr.getD (Spec.outIndex (Bg.shape.map Int.toNat) axis i) 0
            else 0))).getD k 0
      = if orig j = k then G.ptr.getD j 0 else 0 := by
  have hs : mode ≠ "sum" := by rcases hmode with rfl | rfl <;> decide
  have hm : mode ≠ "mean" := by rcases hmode with rfl | rfl <;> decide
  rw [getD_map_range _ _ _ hk]
  simp only [if_neg hs, if_neg hm, hkj]
  rw [getD_map_range _ _ _ hj]
  simp only [Nat.cast_inj]
  norm_num

/-- C25. For max and min reductions, `delta_reduce` routes the entire upstream
gradient of each reduction group to a single source position: `reduce` records
for every non-empty group the first element, in source linear-index order,
that attains the extreme value, and `delta_reduce` with that index buffer
writes the group's upstream gradient at that position and zero at every other
position of the group. -/
theorem Tensor_delta_reduce_routes_extreme (A B0 C0 G Bg : Tensor) (axis : List Int)
    (mode : String) (keepdims : Bool)
    (hmode : mode = "max" ∨ mode = "min")
    (hnodup : axis.Nodup) (hrange : ∀ a ∈ axis, 0 ≤ a ∧ a < (A.ndim : Int))
    (hdevB : A.device = B0.device)
    (hshapeB : B0.shape = (if keepdims then Spec.unitAxes axis A.shape
                            else Spec.dropAxes axis A.shape))
    (hBgshape : Bg.shape = A.shape) (hBgndim : Bg.ndim = A.ndim)
    (hdevG : G.device = Bg.device)
    (hshapeG : G.shape = (if keepdims then Spec.unitAxes axis A.shape
                           else Spec.dropAxes axis A.shape)) :
    ∃ (run : ReduceRun) (C1 Gout : Tensor),
      Tensor.reduce A B0 axis mode keepdims (some C0) 0 = .ok run
      ∧ run.C = some C1
      ∧ Tensor.delta_reduce G Bg axis mode keepdims (some C1) 0 = .ok Gout
      ∧ Gout.shape = A.shape
      ∧ ∀ j : Nat, j < (Spec.dropAt axis 0 (A.shape.map Int.toNat)).prod →
          Spec.group (A.shape.map Int.toNat) axis j ≠ [] →
          Spec.origin mode (fun i => A.ptr.getD i 0)
              (Spec.group (A.shape.map Int.toNat) axis j)
            ∈ Spec.group (A.shape.map Int.toNat) axis j
          ∧ (∀ k ∈ Spec.group (A.shape.map Int.toNat) axis j,
              (mode = "max" → A.ptr.getD k 0
                ≤ A.ptr.getD (Spec.origin mode (fun i => A.ptr.getD i 0)
                    (Spec.group (A.shape.map Int.toNat) axis j)) 0)
              ∧ (mode = "min" → A.ptr.getD (Spec.origin mode (fun i => A.ptr.getD i 0)
                    (Spec.group (A.shape.map Int.toNat) axis j)) 0
                ≤ A.ptr.getD k 0))
          ∧ (∀ k ∈ Spec.group (A.shape.map Int.toNat) axis j,
              k < Spec.origin mode (fun i => A.ptr.getD i 0)
                    (Spec.group (A.shape.map Int.toNat) axis j) →
              A.ptr.getD k 0
                ≠ A.ptr.getD (Spec.origin mode (fun i => A.ptr.getD i 0)
                    (Spec.group (A.shape.map Int.toNat) axis j)) 0)
          ∧ run.B.ptr.getD j 0
              = A.ptr.getD (Spec.origin mode (fun i => A.ptr.getD i 0)
                    (Spec.group (A.shape.map Int.toNat) axis j)) 0
          ∧ Gout.ptr.getD (Spec.origin mode (fun i => A.ptr.getD i 0)
                (Spec.group (A.shape.map Int.toNat) axis j)) 0 = G.ptr.getD j 0
          ∧ ∀ k ∈ Spec.group (A.shape.map Int.toNat) axis j,
              k ≠ Spec.origin mode (fun i => A.ptr.getD i 0)
                    (Spec.group (A.shape.map Int.toNat) axis j) →
              Gout.ptr.getD k 0 = 0 := by
  have hmem : mode ∈ ["sum", "mean", "max", "min"] := by
    rcases hmode with rfl | rfl <;> decide
  have hok := Tensor_reduce_ok A B0 axis mode keepdims (some C0) 0 hnodup hrange hdevB
    hshapeB hmem
  rw [if_pos hmode] at hok
  have hdok := Tensor_delta_reduce_ok G Bg axis mode keepdims
    { C0 with ptr := ((List.range (Spec.dropAt axis 0 (A.shape.map Int.toNat)).prod).map
        (fun j => ((Spec.origin mode (fun i => A.ptr.getD i 0)
          (Spec.group (A.shape.map Int.toNat) axis j) : Nat) : ℚ))) }
    0 hnodup (by rw [hBgndim]; exact hrange) hdevG (by rw [hBgshape]; exact hshapeG) hmem
  refine ⟨_, _, _, hok, rfl, hdok, hBgshape, ?_⟩
  intro j hj hne
  have hp := group_pairwise (A.shape.map Int.toNat) axis j
  have hval : ∀ g : List Nat, Spec.reduceValue mode (fun i => A.ptr.getD i 0) g
      = A.ptr.getD (Spec.origin mode (fun i => A.ptr.getD i 0) g) 0 := by
    intro g
    rcases hmode with rfl | rfl <;> rfl
  have hentry : ∀ k ∈ Spec.group (A.shape.map Int.toNat) axis j,
      ((List.range (Bg.shape.map Int.toNat).prod).map (fun i =>
        (if (0 : Int) = 1 then Bg.ptr.getD i 0 else 0)
          + (if mode = "sum" then
              G.ptr.getD (Spec.outIndex (Bg.shape.map Int.toNat) axis i) 0
            else if mode = "mean" then
              G.ptr.getD (Spec.outIndex (Bg.shape.map Int.toNat) axis i) 0
                / ((Spec.group (Bg.shape.map Int.toNat) axis
                      (Spec.outIndex (Bg.shape.map Int.toNat) axis i)).length : ℚ)
            else if ((List.range (Spec.dropAt axis 0 (A.shape.map Int.toNat)).prod).map
                  (fun j => ((Spec.origin mode (fun i => A.ptr.getD i 0)
                    (Spec.group (A.shape.map Int.toNat) axis j) : Nat) : ℚ))).getD
                  (Spec.outIndex (Bg.shape.map Int.toNat) axis i) 0 = (i : ℚ)
              then G.ptr.getD (Spec.outIndex (Bg.shape.map Int.toNat) axis i) 0
            else 0))).getD k 0
        = if Spec.origin mode (fun i => A.ptr.getD i 0)
              (Spec.group (A.shape.map Int.toNat) axis j) = k
          then G.ptr.getD j 0 else 0 := by
    intro k hk
    have hk' := (mem_group _ _ _ _).mp hk
    exact delta_reduce_extreme_entry G Bg axis mode hmode _
      (fun j => Spec.origin mode (fun i => A.ptr.getD i 0)
        (Spec.group (A.shape.map Int.toNat) axis j)) k j
      (by rw [hBgshape]; exact hk'.1) (by rw [hBgshape]; exact hk'.2) hj
  have hspec : Spec.origin mode (fun i => A.ptr.getD i 0)
        (Spec.group (A.shape.map Int.toNat) axis j)
          ∈ Spec.group (A.shape.map Int.toNat) axis j
      ∧ (∀ k ∈ Spec.group (A.shape.map Int.toNat) axis j,
          (mode = "max" → A.ptr.getD k 0
            ≤ A.ptr.getD (Spec.origin mode (fun i => A.ptr.getD i 0)
                (Spec.group (A.shape.map Int.toNat) axis j)) 0)
          ∧ (mode = "min" → A.ptr.getD (Spec.origin mode (fun i => A.ptr.getD i 0)
                (Spec.group (A.shape.map Int.toNat) axis j)) 0
            ≤ A.ptr.getD k 0))
      ∧ (∀ k ∈ Spec.group (A.shape.map Int.toNat) axis j,
          k < Spec.origin mode (fun i => A.ptr.getD i 0)
                (Spec.group (A.shape.map Int.toNat) axis j) →
          A.ptr.getD k 0
            ≠ A.ptr.getD (Spec.origin mode (fun i => A.ptr.getD i 0)
                (Spec.group (A.shape.map Int.toNat) axis j)) 0) := by
    rcases hmode with rfl | rfl
    · obtain ⟨h1, h2, h3⟩ := firstArgmax_spec (fun i => A.ptr.getD i 0) _ hne hp
      refine ⟨h1, ?_, ?_⟩
      · intro k hk
        exact ⟨fun _ => h2 k hk, fun h => absurd h (by decide)⟩
      · intro k hk hlt
        exact ne_of_lt (h3 k hk hlt)
    · obtain ⟨h1, h2, h3⟩ := firstArgmin_spec (fun i => A.ptr.getD i 0) _ hne hp
      refine ⟨h1, ?_, ?_⟩
      · intro k hk
        exact ⟨fun h => absurd h (by decide), fun _ => h2 k hk⟩
      · intro k hk hlt
        exact ne_of_gt (h3 k hk hlt)
  refine ⟨hspec.1, hspec.2.1, hspec.2.2, ?_, ?_, ?_⟩
  · show ((List.range (Spec.dropAt axis 0 (A.shape.map Int.toNat)).prod).map
        (fun j => (if (0 : Int) = 1 then B0.ptr.getD j 0 else 0)
          + Spec.reduceValue mode (fun i => A.ptr.getD i 0)
              (Spec.group (A.shape.map Int.toNat) axis j))).getD j 0 = _
    rw [getD_map_range _ _ _ hj, hval]
    norm_num
  · have := hentry _ hspec.1
    rw [if_pos rfl] at this
    exact this
  · intro k hk hne'
    have := hentry k hk
    rw [if_neg (fun h => hne' h.symm)] at this
    exact this

theorem Tensor_delta_reduce_routes_extreme_witness :
    (test_axis2.Nodup
      ∧ (∀ a ∈ test_axis2, 0 ≤ a ∧ a < ((test_full [4, 2, 3] 1).ndim : Int))
      ∧ (Tensor.new [4, 3] DEV_CPU).shape
          = Spec.dropAxes test_axis2 (test_full [4, 2, 3] 1).shape)
    ∧ Spec.group [4, 2, 3] test_axis2 4 = [7, 10]
    ∧ ∃ (run : ReduceRun) (C1 Gout : Tensor),
        Tensor.reduce (test_full [4, 2, 3] 1) (Tensor.new [4, 3] DEV_CPU) test_axis2 "max"
            false (some (Tensor.new [4, 3] DEV_CPU)) 0 = .ok run
        ∧ run.C = some C1
        ∧ Tensor.delta_reduce (test_full [4, 3] 1) test_A2 test_axis2 "max" false
            (some C1) 0 = .ok Gout
        ∧ Gout.shape = [4, 2, 3]
        ∧ run.B.ptr.getD 4 0 = 1 ∧ Gout.ptr.getD 7 0 = 1 ∧ Gout.ptr.getD 10 0 = 0 := by
  refine ⟨⟨by decide, by decide, by decide⟩, by decide, ?_⟩
  obtain ⟨run, C1, Gout, h1, h2, h3, h4, h5⟩ :=
    Tensor_delta_reduce_routes_extreme (test_full [4, 2, 3] 1) (Tensor.new [4, 3] DEV_CPU)
      (Tensor.new [4, 3] DEV_CPU) (test_full [4, 3] 1) test_A2 test_axis2 "max" false
      (Or.inl rfl) (by decide) (by decide) (by decide) (by decide) (by decide) (by decide)
      (by decide) (by decide)
  have hg : Spec.group ((test_full [4, 2, 3] 1).shape.map Int.toNat) test_axis2 4
      = [7, 10] := by decide
  have h6 := h5 4 (by decide) (by rw [hg]; decide)
  rw [hg] at h6
  have hv7 : (test_full [4, 2, 3] 1).ptr.getD 7 0 = 1 := rfl
  have hv10 : (test_full [4, 2, 3] 1).ptr.getD 10 0 = 1 := rfl
  have hG : (test_full [4, 3] 1).ptr.getD 4 0 = 1 := rfl
  obtain ⟨hmem, _, hfirst, hB, hGo, hrest⟩ := h6
  have ho : Spec.origin "max" (fun i => (test_full [4, 2, 3] 1).ptr.getD i 0) [7, 10] = 7 := by
    rcases List.mem_cons.mp hmem with h | h
    · exact h
    · exfalso
      have h10 : Spec.origin "max" (fun i => (test_full [4, 2, 3] 1).ptr.getD i 0) [7, 10]
          = 10 := by simpa using h
      have := hfirst 7 (by decide) (by rw [h10]; decide)
      rw [h10, hv7, hv10] at this
      exact this rfl
  rw [ho] at hB hGo hrest
  refine ⟨run, C1, Gout, h1, h2, h3, h4.trans (by decide), ?_, ?_, ?_⟩
  · rw [hB, hv7]
  · rw [hGo, hG]
  · exact hrest 10 (by decide) (by decide)
